import Mathlib

/-!
Verification model of the ops-brain ingestion pipelines.

The definitions below are a shallow embedding of the JavaScript ingestion
scripts (src/scripts/shopify_sync_orders_daily.js,
src/scripts/loop_sync_subscriptions_daily.js, src/scripts/lib/loop.js, the
ingestion-run helper, and the SQL schema in src/database/schema.sql).

Modelling conventions, fixed once here:
* Timestamps are integers (epoch milliseconds).  JavaScript ISO strings that
  are null, empty or unparseable are modelled as `none`; a present, parseable
  timestamp is `some t`.  Comparisons through `new Date(...)`/`Date.parse`
  become integer comparisons.
* Monetary inputs are modelled as already-parsed numbers (`Option Int`);
  `moneyToNum` maps an absent or unparseable value to 0 exactly as
  `Number(x)`+`isFinite` fallback does in the source.
* A SQL table is an association list keyed by its conflict target
  (primary key or unique index).  `insert .. on conflict do update` is the
  `WOp.ups` write, `insert .. on conflict do nothing` is `WOp.ifAbsent`.
  The table `ops.fact_shopify_refund_line_items` has only a *partial* unique
  index (`where line_item_id is not null`, schema.sql), so rows with a null
  line-item id live in a separate append-only list, mirroring the plain
  `insert` the source uses for them.
* Wall-clock audit columns (`ingested_at`, `updated_at` defaults, the
  `created_at` timestamp inside stub attributes) are not part of the state;
  audit row counters (`rows_upserted` etc.) are likewise omitted — the spec
  declares them irrelevant to correctness.
* NOT NULL and CHECK constraints of the schema are enforced at the modelled
  write (they are the failure modes the claims exercise); foreign-key checks
  are not re-checked because stub creation precedes every dependent write in
  the source, which is itself part of the model.
-/

set_option maxHeartbeats 1000000
set_option maxRecDepth 10000

namespace OpsModel

/-- Association-list lookup by key: the row a keyed SQL table holds for `k`. -/
def lookupA {K V : Type} [DecidableEq K] : List (K × V) → K → Option V
  | [], _ => none
  | p :: t, k => if p.1 = k then some p.2 else lookupA t k

/-- The keys (conflict-target values) present in a table. -/
def keysA {K V : Type} (m : List (K × V)) : List K := m.map Prod.fst

/-- Overwrite the value stored at key `k`, keeping row order. -/
def setVal {K V : Type} [DecidableEq K] (k : K) (v : V) (m : List (K × V)) : List (K × V) :=
  m.map (fun p => if p.1 = k then (k, v) else p)

/-- One SQL write against a keyed table: an upsert
(`insert .. on conflict .. do update`) or an insert-if-absent
(`insert .. on conflict .. do nothing`). -/
inductive WOp (K V : Type) where
  | ups (k : K) (v : V)
  | ifAbsent (k : K) (v : V)
deriving DecidableEq

/-- The conflict-target key of a write. -/
def WOp.key {K V : Type} : WOp K V → K
  | .ups k _ => k
  | .ifAbsent k _ => k

/-- Execute one write against a table. -/
def applyOp {K V : Type} [DecidableEq K] (m : List (K × V)) : WOp K V → List (K × V)
  | .ups k v => if k ∈ keysA m then setVal k v m else m ++ [(k, v)]
  | .ifAbsent k v => if k ∈ keysA m then m else m ++ [(k, v)]

/-- Execute a sequence of writes left to right. -/
def applyOps {K V : Type} [DecidableEq K] (m : List (K × V)) (ops : List (WOp K V)) :
    List (K × V) :=
  ops.foldl applyOp m

/-- The value written by the last upsert of `ops` on key `k`, if any. -/
def lastUps {K V : Type} [DecidableEq K] : List (WOp K V) → K → Option V
  | [], _ => none
  | op :: t, k =>
    match lastUps t k with
    | some w => some w
    | none =>
      match op with
      | .ups k2 v => if k2 = k then some v else none
      | .ifAbsent _ _ => none

/-- Rewrite a row to the value of the last upsert on its key, if one exists. -/
def gFinal {K V : Type} [DecidableEq K] (ops : List (WOp K V)) (p : K × V) : K × V :=
  match lastUps ops p.1 with
  | some w => (p.1, w)
  | none => p

section OpsLemmas

variable {K V : Type} [DecidableEq K]

theorem applyOps_append (m : List (K × V)) (a b : List (WOp K V)) :
    applyOps m (a ++ b) = applyOps (applyOps m a) b :=
  List.foldl_append _ _ _ _

theorem applyOps_cons (m : List (K × V)) (op : WOp K V) (t : List (WOp K V)) :
    applyOps m (op :: t) = applyOps (applyOp m op) t := rfl

theorem keysA_setVal (k : K) (v : V) (m : List (K × V)) :
    keysA (setVal k v m) = keysA m := by
  induction m with
  | nil => rfl
  | cons p t ih =>
    simp only [setVal, keysA, List.map_cons] at *
    by_cases h : p.1 = k
    · simp [h, ih]
    · simp [h, ih]

theorem mem_keysA_append (a : K) (m : List (K × V)) (p : K × V) (h : a ∈ keysA m) :
    a ∈ keysA (m ++ [p]) := by
  simp only [keysA, List.map_append] at *
  exact List.mem_append_left _ h

theorem mem_keysA_applyOp (a : K) (m : List (K × V)) (op : WOp K V) (h : a ∈ keysA m) :
    a ∈ keysA (applyOp m op) := by
  cases op with
  | ups k v =>
    simp only [applyOp]
    by_cases hk : k ∈ keysA m
    · simpa [hk, keysA_setVal] using h
    · simpa [hk] using mem_keysA_append a m (k, v) h
  | ifAbsent k v =>
    simp only [applyOp]
    by_cases hk : k ∈ keysA m
    · simpa [hk] using h
    · simpa [hk] using mem_keysA_append a m (k, v) h

theorem key_mem_applyOp (m : List (K × V)) (op : WOp K V) :
    op.key ∈ keysA (applyOp m op) := by
  cases op with
  | ups k v =>
    simp only [applyOp, WOp.key]
    by_cases hk : k ∈ keysA m
    · rw [if_pos hk, keysA_setVal]
      exact hk
    · rw [if_neg hk]
      simp [keysA, List.map_append]
  | ifAbsent k v =>
    simp only [applyOp, WOp.key]
    by_cases hk : k ∈ keysA m
    · rw [if_pos hk]
      exact hk
    · rw [if_neg hk]
      simp [keysA, List.map_append]

theorem mem_keysA_applyOps (a : K) (m : List (K × V)) (ops : List (WOp K V))
    (h : a ∈ keysA m) : a ∈ keysA (applyOps m ops) := by
  induction ops generalizing m with
  | nil => exact h
  | cons op t ih => exact ih (applyOp m op) (mem_keysA_applyOp a m op h)

theorem key_mem_applyOps (m : List (K × V)) (ops : List (WOp K V)) (op : WOp K V)
    (h : op ∈ ops) : op.key ∈ keysA (applyOps m ops) := by
  induction ops generalizing m with
  | nil => cases h
  | cons hd t ih =>
    rcases List.mem_cons.mp h with h1 | h2
    · subst h1
      rw [applyOps_cons]
      exact mem_keysA_applyOps _ (applyOp m op) t (key_mem_applyOp m op)
    · rw [applyOps_cons]
      exact ih (applyOp m hd) h2

theorem map_eq_self {α : Type} (f : α → α) (l : List α) (h : ∀ x ∈ l, f x = x) :
    l.map f = l := by
  induction l with
  | nil => rfl
  | cons a t ih =>
    simp only [List.map_cons]
    rw [h a (List.mem_cons_self a t), ih (fun x hx => h x (List.mem_cons_of_mem a hx))]

theorem gFinal_setStep (k : K) (v : V) (t : List (WOp K V)) (p : K × V) :
    gFinal t (if p.1 = k then (k, v) else p) = gFinal (.ups k v :: t) p := by
  by_cases hp : p.1 = k
  · simp only [hp, if_pos rfl, gFinal, lastUps]
    cases h : lastUps t k with
    | some w => simp [hp, h]
    | none => simp [hp, h]
  · simp only [if_neg hp, gFinal, lastUps]
    cases h : lastUps t p.1 with
    | some w => simp [h]
    | none =>
      have : ¬ k = p.1 := fun hk => hp hk.symm
      simp [h, this]

theorem gFinal_skipStep (k : K) (v : V) (t : List (WOp K V)) (p : K × V) :
    gFinal t p = gFinal (.ifAbsent k v :: t) p := by
  simp only [gFinal, lastUps]
  cases h : lastUps t p.1 with
  | some w => simp [h]
  | none => simp [h]

theorem applyOps_of_allKeys (ops : List (WOp K V)) : ∀ (M : List (K × V)),
    (∀ op ∈ ops, op.key ∈ keysA M) → applyOps M ops = M.map (gFinal ops) := by
  induction ops with
  | nil =>
    intro M _
    exact (map_eq_self _ M (fun p _ => rfl)).symm
  | cons op t ih =>
    intro M hall
    have hk : op.key ∈ keysA M := hall op (List.mem_cons_self op t)
    cases op with
    | ups k v =>
      have hkM : k ∈ keysA M := hk
      have h1 : applyOps M (.ups k v :: t) = applyOps (setVal k v M) t := by
        simp [applyOps_cons, applyOp, hkM]
      rw [h1, ih (setVal k v M) (fun o ho => by
        rw [keysA_setVal]
        exact hall o (List.mem_cons_of_mem _ ho))]
      simp only [setVal, List.map_map]
      apply List.map_congr_left
      intro p _
      exact gFinal_setStep k v t p
    | ifAbsent k v =>
      have hkM : k ∈ keysA M := hk
      have h1 : applyOps M (.ifAbsent k v :: t) = applyOps M t := by
        simp [applyOps_cons, applyOp, hkM]
      rw [h1, ih M (fun o ho => hall o (List.mem_cons_of_mem _ ho))]
      apply List.map_congr_left
      intro p _
      exact gFinal_skipStep k v t p

theorem values_stable (k : K) (w : V) (t : List (WOp K V)) :
    ∀ (m : List (K × V)), lastUps t k = none → k ∈ keysA m →
    (∀ q ∈ m, q.1 = k → q.2 = w) → ∀ q ∈ applyOps m t, q.1 = k → q.2 = w := by
  induction t with
  | nil =>
    intro m _ _ hval q hq
    exact hval q hq
  | cons op t' ih =>
    intro m hnone hkm hval q hq hqk
    have hnone' : lastUps t' k = none := by
      simp only [lastUps] at hnone
      cases h : lastUps t' k with
      | some w2 => rw [h] at hnone; cases hnone
      | none => rfl
    have hopne : ∀ k2 v, op = .ups k2 v → k2 ≠ k := by
      intro k2 v hop hk2
      subst hop; subst hk2
      simp only [lastUps, hnone'] at hnone
      simp at hnone
    have hmem' : k ∈ keysA (applyOp m op) := mem_keysA_applyOp k m op hkm
    have hval' : ∀ q ∈ applyOp m op, q.1 = k → q.2 = w := by
      intro q2 hq2 hq2k
      cases op with
      | ups k2 v =>
        have hk2 : k2 ≠ k := hopne k2 v rfl
        simp only [applyOp] at hq2
        by_cases hin : k2 ∈ keysA m
        · rw [if_pos hin] at hq2
          simp only [setVal, List.mem_map] at hq2
          obtain ⟨q0, hq0, hq0eq⟩ := hq2
          by_cases h0 : q0.1 = k2
          · rw [if_pos h0] at hq0eq
            rw [← hq0eq] at hq2k
            exact absurd hq2k hk2
          · rw [if_neg h0] at hq0eq
            subst hq0eq
            exact hval q0 hq0 hq2k
        · rw [if_neg hin] at hq2
          rcases List.mem_append.mp hq2 with h1 | h2
          · exact hval q2 h1 hq2k
          · simp only [List.mem_singleton] at h2
            subst h2
            exact absurd hq2k hk2
      | ifAbsent k2 v =>
        simp only [applyOp] at hq2
        by_cases hin : k2 ∈ keysA m
        · rw [if_pos hin] at hq2
          exact hval q2 hq2 hq2k
        · rw [if_neg hin] at hq2
          rcases List.mem_append.mp hq2 with h1 | h2
          · exact hval q2 h1 hq2k
          · simp only [List.mem_singleton] at h2
            subst h2
            simp only at hq2k
            subst hq2k
            exact absurd hkm hin
    exact ih (applyOp m op) hnone' hmem' hval' q hq hqk

theorem val_eq_lastUps (k : K) (w : V) (ops : List (WOp K V)) :
    ∀ (m : List (K × V)), lastUps ops k = some w →
    ∀ q ∈ applyOps m ops, q.1 = k → q.2 = w := by
  induction ops with
  | nil =>
    intro m h
    simp [lastUps] at h
  | cons op t ih =>
    intro m hsome q hq hqk
    cases h : lastUps t k with
    | some w' =>
      have hww : w' = w := by
        simp only [lastUps, h] at hsome
        exact Option.some.inj hsome
      subst hww
      exact ih (applyOp m op) h q hq hqk
    | none =>
      have hop : op = .ups k w := by
        cases op with
        | ups k2 v =>
          by_cases hk2 : k2 = k
          · subst hk2
            have hv : v = w := by simpa [lastUps, h] using hsome
            rw [hv]
          · exfalso
            simp [lastUps, h, hk2] at hsome
        | ifAbsent k2 v =>
          exfalso
          simp [lastUps, h] at hsome
      subst hop
      have hmem : k ∈ keysA (applyOp m (.ups k w)) := key_mem_applyOp m (.ups k w)
      have hval : ∀ q2 ∈ applyOp m (.ups k w), q2.1 = k → q2.2 = w := by
        intro q2 hq2 hq2k
        simp only [applyOp] at hq2
        by_cases hin : k ∈ keysA m
        · rw [if_pos hin] at hq2
          simp only [setVal, List.mem_map] at hq2
          obtain ⟨q0, _, hq0eq⟩ := hq2
          by_cases h0 : q0.1 = k
          · rw [if_pos h0] at hq0eq
            rw [← hq0eq]
          · rw [if_neg h0] at hq0eq
            rw [hq0eq] at h0
            exact absurd hq2k h0
        · rw [if_neg hin] at hq2
          rcases List.mem_append.mp hq2 with h1 | h2
          · have : q2.1 ∈ keysA m := List.mem_map_of_mem Prod.fst h1
            rw [hq2k] at this
            exact absurd this hin
          · simp only [List.mem_singleton] at h2
            rw [h2]
      exact values_stable k w t (applyOp m (.ups k w)) h hmem hval q hq hqk

/-- Replaying the same sequence of keyed SQL writes is a no-op: the table
after two passes equals the table after one pass. -/
theorem applyOps_idem (m : List (K × V)) (ops : List (WOp K V)) :
    applyOps (applyOps m ops) ops = applyOps m ops := by
  have hkeys : ∀ op ∈ ops, op.key ∈ keysA (applyOps m ops) :=
    fun op hop => key_mem_applyOps m ops op hop
  rw [applyOps_of_allKeys ops (applyOps m ops) hkeys]
  apply map_eq_self
  intro p hp
  simp only [gFinal]
  cases h : lastUps ops p.1 with
  | some w =>
    have := val_eq_lastUps p.1 w ops m h p hp rfl
    rw [← this]
  | none => rfl

theorem lookupA_isSome_iff_mem (m : List (K × V)) (k : K) :
    (lookupA m k).isSome ↔ k ∈ keysA m := by
  induction m with
  | nil => simp [lookupA, keysA]
  | cons p t ih =>
    simp only [lookupA, keysA, List.map_cons, List.mem_cons]
    by_cases h : p.1 = k
    · simp [h]
    · simp only [if_neg h, ih, keysA]
      constructor
      · intro hm; exact Or.inr hm
      · intro hm
        rcases hm with h1 | h2
        · exact absurd h1.symm h
        · exact h2

theorem lookupA_setVal_self (k : K) (v : V) (m : List (K × V)) (h : k ∈ keysA m) :
    lookupA (setVal k v m) k = some v := by
  induction m with
  | nil => simp [keysA] at h
  | cons p t ih =>
    by_cases hp : p.1 = k
    · simp [setVal, lookupA, hp]
    · have ht : k ∈ keysA t := by
        simp only [keysA, List.map_cons, List.mem_cons] at h
        rcases h with h1 | h2
        · exact absurd h1.symm hp
        · exact h2
      simpa [setVal, lookupA, hp] using ih ht

theorem lookupA_append_right (m : List (K × V)) (k : K) (v : V) (h : ¬ k ∈ keysA m) :
    lookupA (m ++ [(k, v)]) k = some v := by
  induction m with
  | nil => simp [lookupA]
  | cons p t ih =>
    simp only [List.cons_append, lookupA]
    by_cases hp : p.1 = k
    · exfalso
      apply h
      simp [keysA, hp]
    · rw [if_neg hp]
      apply ih
      intro hm
      apply h
      simp only [keysA, List.map_cons, List.mem_cons]
      exact Or.inr hm

/-- After an upsert, looking up the upserted key returns the written value. -/
theorem lookupA_applyOp_ups_self (m : List (K × V)) (k : K) (v : V) :
    lookupA (applyOp m (.ups k v)) k = some v := by
  simp only [applyOp]
  by_cases h : k ∈ keysA m
  · rw [if_pos h]
    exact lookupA_setVal_self k v m h
  · rw [if_neg h]
    exact lookupA_append_right m k v h

theorem lookupA_setVal_ne (k k' : K) (v : V) (m : List (K × V)) (h : k' ≠ k) :
    lookupA (setVal k v m) k' = lookupA m k' := by
  induction m with
  | nil => rfl
  | cons p t ih =>
    by_cases hp : p.1 = k
    · have hkk : ¬ (k = k') := fun he => h he.symm
      have hpk : ¬ (p.1 = k') := by
        rw [hp]; exact hkk
      simp only [setVal, List.map_cons, if_pos hp, lookupA, if_neg hkk, if_neg hpk]
      simpa [setVal] using ih
    · by_cases hp' : p.1 = k'
      · show lookupA ((if p.1 = k then (k, v) else p) :: setVal k v t) k'
            = lookupA (p :: t) k'
        rw [if_neg hp]
        simp [lookupA, hp']
      · show lookupA ((if p.1 = k then (k, v) else p) :: setVal k v t) k'
            = lookupA (p :: t) k'
        rw [if_neg hp]
        simp only [lookupA, if_neg hp']
        exact ih

theorem lookupA_append_ne (m : List (K × V)) (k k' : K) (v : V) (h : k' ≠ k) :
    lookupA (m ++ [(k, v)]) k' = lookupA m k' := by
  induction m with
  | nil =>
    have hkk : ¬ (k = k') := fun he => h he.symm
    simp [lookupA, hkk]
  | cons p t ih =>
    by_cases hp : p.1 = k'
    · simp [lookupA, hp]
    · simp [lookupA, hp, ih]

/-- An upsert leaves every other key's row unchanged. -/
theorem lookupA_applyOp_ups_ne (m : List (K × V)) (k k' : K) (v : V) (h : k' ≠ k) :
    lookupA (applyOp m (.ups k v)) k' = lookupA m k' := by
  simp only [applyOp]
  by_cases hm : k ∈ keysA m
  · rw [if_pos hm]
    exact lookupA_setVal_ne k k' v m h
  · rw [if_neg hm]
    exact lookupA_append_ne m k k' v h

end OpsLemmas

end OpsModel

namespace OpsModel

/-- Environment configuration of the daily pipelines
(DEFAULT_LOOKBACK_DAYS, OVERLAP_HOURS, INSERT_STUB_SKUS). -/
structure Config where
  lookbackDays : Int
  overlapHours : Int
  insertStubSkus : Bool
deriving DecidableEq

/-- Failure raised by a modelled database write or page fetch.
`conflictSpec` is the planner error "no unique or exclusion constraint
matching the ON CONFLICT specification" (42P10): an `on conflict` target
that names the columns of a partial unique index without repeating its
`where` predicate cannot be matched to that index. -/
inductive RunErr where
  | notNullViolation
  | checkViolation
  | skuMissing
  | httpFailure
  | conflictSpec
deriving DecidableEq

/-- Status column of ops.ingestion_runs (enum ops.sync_status). -/
inductive RunStatus where
  | started
  | succeeded
  | failed
deriving DecidableEq

/-- A row of ops.ingestion_runs.  The metadata map is represented by the one
key the claims inspect (`terminated`); audit counters and timestamps are
outside the model. -/
structure RunRow where
  source : String
  pipeline : String
  status : RunStatus
  terminated : Bool
deriving DecidableEq

/-- The jsonb value of ops.sync_state, covering the cursor shapes both daily
pipelines read and write (`last_max_updated_at`, `last_end_iso`,
`last_max_updated_at_seen`). -/
structure CursorVal where
  last_max_updated_at : Option Int
  last_end_iso : Option Int
  last_max_updated_at_seen : Option Int
deriving DecidableEq

/-- A row of ops.dim_sku as far as these pipelines read or write it.  Stub
rows carry `stub = true` provenance in the attributes jsonb; a pre-existing
(possibly non-stub) row is any value of this type. -/
structure SkuRow where
  is_stub : Bool
  product_title : Option String
  variant_title : Option String
  shopify_product_id : Option Int
  shopify_variant_id : Option Int
  stub_reason : Option String
  created_by : Option String
deriving DecidableEq

/-- Arguments of a stub insertion (the titles/ids plus provenance the caller
passes to ensureSkuExists / ensureSkuExistsBestEffort). -/
structure StubAttrs where
  product_title : Option String
  variant_title : Option String
  product_id : Option Int
  variant_id : Option Int
  reason : String
  created_by : String
deriving DecidableEq

/-- The dim_sku row a stub insertion writes. -/
def stubSkuRow (a : StubAttrs) : SkuRow :=
  { is_stub := true
    product_title := a.product_title
    variant_title := a.variant_title
    shopify_product_id := a.product_id
    shopify_variant_id := a.variant_id
    stub_reason := some a.reason
    created_by := some a.created_by }

/-- A tax line of a Shopify REST line item. -/
structure TaxLineRec where
  price : Option Int
deriving DecidableEq

/-- A Shopify REST order line item, with monetary fields already parsed
(absent/unparseable values are none). -/
structure LineItemRec where
  id : Nat
  sku : Option String
  product_id : Option Int
  variant_id : Option Int
  title : Option String
  variant_title : Option String
  name : Option String
  quantity : Option Int
  fulfillment_service : Option String
  price : Option Int
  total_discount : Option Int
  tax_lines : Option (List TaxLineRec)
deriving DecidableEq

/-- The `line_item` object embedded in a refund line item. -/
structure RefundLineItemRef where
  id : Option Nat
  sku : Option String
  title : Option String
  variant_title : Option String
  product_id : Option Int
  variant_id : Option Int
deriving DecidableEq

/-- A Shopify refund line item. -/
structure RefundLineItemRec where
  line_item : Option RefundLineItemRef
  line_item_id : Option Nat
  subtotal : Option Int
  amount : Option Int
  total_tax : Option Int
  quantity : Option Int
deriving DecidableEq

/-- A Shopify refund. -/
structure RefundRec where
  id : Nat
  created_at : Option Int
  note : Option String
  refund_line_items : Option (List RefundLineItemRec)
deriving DecidableEq

/-- The customer object of a Shopify order. -/
structure CustomerRec where
  id : Option Int
deriving DecidableEq

/-- A Shopify REST order as fetched by the daily sync.  Tags are modelled in
their array form (parseTags is the identity on arrays). -/
structure OrderRec where
  id : Int
  order_number : Option Int
  customer : Option CustomerRec
  processed_at : Option Int
  created_at : Option Int
  updated_at : Option Int
  currency : Option String
  financial_status : Option String
  fulfillment_status : Option String
  cancelled_at : Option Int
  cancel_reason : Option String
  tags : List String
  test : Bool
  line_items : Option (List LineItemRec)
  refunds : Option (List RefundRec)
deriving DecidableEq

/-- A stored row of ops.fact_shopify_order_line_items: the computed revenue
columns plus the source record (the remaining columns are projections of
it). -/
structure LineItemRow where
  sku : String
  quantity : Int
  gross_item_revenue : Int
  discount_amount : Int
  tax_amount : Int
  net_item_revenue : Int
  is_subscription : Bool
  li : LineItemRec
deriving DecidableEq

/-- A stored row of ops.fact_shopify_refunds (header). -/
structure RefundRow where
  order_id : Int
  r : RefundRec
deriving DecidableEq

/-- A stored row of ops.fact_shopify_refund_line_items. -/
structure RefundLineRow where
  refund_id : Nat
  order_id : Int
  line_item_id : Option Nat
  sku : Option String
  quantity : Int
  refund_amount : Int
deriving DecidableEq

/-- A Loop subscription line; `payload` stands for the remaining attributes
stored verbatim in the row. -/
structure SubLineRec where
  id : Option Nat
  sku : Option String
  quantity : Option Int
  productTitle : Option String
  variantTitle : Option String
  productShopifyId : Option Int
  variantShopifyId : Option Int
  payload : String
deriving DecidableEq

/-- A Loop subscription record; the columns of ops.fact_loop_subscriptions
are pure projections of it, so the record models the stored row.  `payload`
stands for the attributes not individually inspected by the model. -/
structure SubRec where
  id : Int
  updatedAt : Option Int
  status : Option String
  lines : Option (List SubLineRec)
  payload : String
deriving DecidableEq

/-- The relational store: each keyed table is an association list keyed by
its conflict target; refund line items with a null line-item id sit outside
the partial unique index and are modelled as an append-only list.
`cursorWrites` counts executed writes to ops.sync_state (instrumentation for
the watermark claims); `nextRunId` generates ingestion-run ids. -/
structure Db where
  sync_state : List (String × CursorVal)
  runs : List (Nat × RunRow)
  nextRunId : Nat
  cursorWrites : Nat
  orders : List (Int × OrderRec)
  line_items : List ((Int × Nat) × LineItemRow)
  dim_sku : List (String × SkuRow)
  refunds : List (Nat × RefundRow)
  refund_lines : List ((Nat × Nat) × RefundLineRow)
  refund_lines_unkeyed : List RefundLineRow
  loop_subs : List (Int × SubRec)
  loop_sub_lines : List ((Int × Nat) × SubLineRec)
deriving DecidableEq

/-- The empty database. -/
def emptyDb : Db :=
  { sync_state := []
    runs := []
    nextRunId := 0
    cursorWrites := 0
    orders := []
    line_items := []
    dim_sku := []
    refunds := []
    refund_lines := []
    refund_lines_unkeyed := []
    loop_subs := []
    loop_sub_lines := [] }

/-- getSyncCursor: `select value from ops.sync_state where key = $1`. -/
def getSyncCursor (db : Db) (key : String) : Option CursorVal :=
  lookupA db.sync_state key

/-- setSyncCursor: upsert into ops.sync_state by key; the write counter is
instrumentation recording that a cursor write was executed. -/
def setSyncCursor (db : Db) (key : String) (v : CursorVal) : Db :=
  { db with
    sync_state := applyOp db.sync_state (.ups key v)
    cursorWrites := db.cursorWrites + 1 }

/-- startIngestionRun: insert a `started` row into ops.ingestion_runs and
return its id. -/
def startIngestionRun (db : Db) (source pipeline : String) : Nat × Db :=
  ( db.nextRunId
  , { db with
      runs := applyOp db.runs
        (.ups db.nextRunId
          { source := source, pipeline := pipeline
            status := .started, terminated := false })
      nextRunId := db.nextRunId + 1 } )

/-- finishIngestionRun: `update ops.ingestion_runs set status = .., metadata
= metadata || patch where id = $1`.  The jsonb merge is modelled on the one
relevant key: a patch carrying `terminated: true` sets the flag; otherwise
the stored flag is kept. -/
def finishIngestionRun (db : Db) (runId : Nat) (st : RunStatus)
    (terminatedPatch : Bool) : Db :=
  match lookupA db.runs runId with
  | none => db
  | some row =>
    { db with
      runs := setVal runId
        { row with status := st, terminated := row.terminated || terminatedPatch }
        db.runs }

/-- Status of a ledger row. -/
def runStatusOf (db : Db) (runId : Nat) : Option RunStatus :=
  (lookupA db.runs runId).map (fun r => r.status)

/-- The `terminated` metadata flag of a ledger row. -/
def runTerminatedOf (db : Db) (runId : Nat) : Option Bool :=
  (lookupA db.runs runId).map (fun r => r.terminated)

end OpsModel

namespace OpsModel

/-- JavaScript `String.prototype.trim`, modelled structurally over the
character list (kernel-reducible, unlike String.trim). -/
def strTrim (s : String) : String :=
  String.mk (((s.toList.dropWhile Char.isWhitespace).reverse.dropWhile
    Char.isWhitespace).reverse)

/-- JavaScript `String.prototype.toLowerCase`, modelled structurally. -/
def strLower (s : String) : String := String.mk (s.toList.map Char.toLower)

namespace Shopify

/-- Pipeline and state key constants of shopify_sync_orders_daily.js. -/
def PIPELINE : String := "shopify_orders_daily"

/-- Cursor key in ops.sync_state. -/
def STATE_KEY : String := "shopify_orders_daily"

/-- moneyToNum: `Number(x)` with a 0 fallback for non-finite input. -/
def moneyToNum (x : Option Int) : Int := x.getD 0

/-- sumTaxLines: sum of the parsed tax-line prices (non-arrays count as 0). -/
def sumTaxLines (taxLines : Option (List TaxLineRec)) : Int :=
  (taxLines.getD []).foldl (fun acc tl => acc + moneyToNum tl.price) 0

/-- JavaScript `String.prototype.includes` (substring test). -/
def strContains (s sub : String) : Bool :=
  (List.range (s.length + 1)).any (fun i => List.isPrefixOf sub.toList (s.toList.drop i))

/-- isSubscriptionFromTags: tag-based subscription classifier of the order. -/
def isSubscriptionFromTags (tagsArr : List String) : Bool :=
  let t := tagsArr.map (fun x => strLower x)
  t.contains ("subscription") ||
  t.contains ("subscription first order") ||
  t.contains ("recurring order") ||
  t.any (fun x => strContains x ("subscription")) ||
  t.any (fun x => strContains x ("loop")) ||
  t.any (fun x => strContains x ("recurring"))

/-- isoDaysAgo: `Date.now() - days*86400*1000`, relative to plan time. -/
def isoDaysAgo (now days : Int) : Int := now - days * 86400000

/-- isoHoursAgoFrom: shift a timestamp back by whole hours. -/
def isoHoursAgoFrom (base hours : Int) : Int := base - hours * 3600000

/-- Cursor extraction of the daily orders sync:
`cursor?.last_max_updated_at || isoDaysAgo(DEFAULT_LOOKBACK_DAYS)`. -/
def shopifyLastMax (cursor : Option CursorVal) (now : Int) (cfg : Config) : Int :=
  (cursor.bind (fun c => c.last_max_updated_at)).getD (isoDaysAgo now cfg.lookbackDays)

/-- Window start (the `updated_at_min` request parameter):
`OVERLAP_HOURS > 0 ? isoHoursAgoFrom(lastMax, OVERLAP_HOURS) : lastMax`. -/
def shopifyUpdatedAtMin (cursor : Option CursorVal) (now : Int) (cfg : Config) : Int :=
  let lastMax := shopifyLastMax cursor now cfg
  if cfg.overlapHours > 0 then isoHoursAgoFrom lastMax cfg.overlapHours else lastMax

/-- upsertOrder: upsert into ops.fact_shopify_orders by order_id; the
schema's NOT NULL columns processed_at and currency reject a null value. -/
def upsertOrder (db : Db) (o : OrderRec) : Except RunErr Db :=
  match o.processed_at, o.currency with
  | some _, some _ => .ok { db with orders := applyOp db.orders (.ups o.id o) }
  | _, _ => .error .notNullViolation

/-- The title/id metadata a caller hands to stub creation. -/
structure SkuMeta where
  productTitle : Option String
  variantTitle : Option String
  productId : Option Int
  variantId : Option Int
deriving DecidableEq

/-- The dim_sku row ensureSkuExists inserts (titles/ids passed by the
caller plus the daily pipeline's stub provenance). -/
def dailyStubRow (m : SkuMeta) : SkuRow :=
  stubSkuRow
    { product_title := m.productTitle
      variant_title := m.variantTitle
      product_id := m.productId
      variant_id := m.variantId
      reason := "seen_in_order_line_item_daily_sync"
      created_by := PIPELINE }

/-- ensureSkuExists: existence check on ops.dim_sku, then (with stubs
enabled) `insert .. on conflict (sku) do nothing` with stub provenance;
with INSERT_STUB_SKUS=false a missing SKU raises instead.  Returns whether a
stub was inserted. -/
def ensureSkuExists (cfg : Config) (db : Db) (sku : String) (m : SkuMeta) :
    Except RunErr (Db × Bool) :=
  match lookupA db.dim_sku sku with
  | some _ => .ok (db, false)
  | none =>
    if cfg.insertStubSkus = false then .error .skuMissing
    else
      .ok
        ( { db with
            dim_sku := applyOp db.dim_sku (.ifAbsent sku (dailyStubRow m)) }
        , true )

/-- Stub metadata passed by upsertLineItem. -/
def liMeta (li : LineItemRec) : SkuMeta :=
  { productTitle := li.title
    variantTitle := li.variant_title.orElse (fun _ => li.name)
    productId := li.product_id
    variantId := li.variant_id }

/-- The stored line-item row (revenue columns computed as in the source). -/
def mkLineItemRow (orderTagsArr : List String) (sku : String) (li : LineItemRec) :
    LineItemRow :=
  let qty := li.quantity.getD 0
  let gross := moneyToNum li.price * qty
  let discount := moneyToNum li.total_discount
  { sku := sku
    quantity := qty
    gross_item_revenue := gross
    discount_amount := discount
    tax_amount := sumTaxLines li.tax_lines
    net_item_revenue := gross - discount
    is_subscription := isSubscriptionFromTags orderTagsArr
    li := li }

/-- upsertLineItem: skip when the trimmed SKU is empty; otherwise stub the
SKU best-effort and upsert into ops.fact_shopify_order_line_items by
(order_id, line_item_id).  The schema's `check (quantity <> 0)` rejects a
zero quantity at the insert. -/
def upsertLineItem (cfg : Config) (db : Db) (orderId : Int)
    (orderTagsArr : List String) (li : LineItemRec) : Except RunErr Db :=
  let sku := strTrim (li.sku.getD (""))
  if sku = "" then .ok db
  else
    match ensureSkuExists cfg db sku (liMeta li) with
    | .error e => .error e
    | .ok (db1, _) =>
      if li.quantity.getD 0 = 0 then .error .checkViolation
      else
        .ok
          { db1 with
            line_items := applyOp db1.line_items
              (.ups (orderId, li.id) (mkLineItemRow orderTagsArr sku li)) }

/-- Line-item loop of one order. -/
def applyLineItems (cfg : Config) (orderId : Int) (orderTagsArr : List String) :
    Db → List LineItemRec → Except RunErr Db
  | db, [] => .ok db
  | db, li :: rest =>
    match upsertLineItem cfg db orderId orderTagsArr li with
    | .error e => .error e
    | .ok db1 => applyLineItems cfg orderId orderTagsArr db1 rest

/-- refundAmount: `moneyToNum(x.subtotal) || moneyToNum(x.amount) ||
moneyToNum(x.total_tax) || 0` (JavaScript `||` takes the first nonzero). -/
def refundAmountOf (x : RefundLineItemRec) : Int :=
  let a := moneyToNum x.subtotal
  let b := moneyToNum x.amount
  let c := moneyToNum x.total_tax
  if a ≠ 0 then a else if b ≠ 0 then b else if c ≠ 0 then c else 0

/-- lineItemId: `li.id ?? x.line_item_id ?? null` with `li = x.line_item or
empty`. -/
def rliLineItemId (x : RefundLineItemRec) : Option Nat :=
  (x.line_item.bind (fun li => li.id)).orElse (fun _ => x.line_item_id)

/-- sku: `(li.sku || "").trim() || null`. -/
def rliSku (x : RefundLineItemRec) : Option String :=
  let s := strTrim ((x.line_item.bind (fun li => li.sku)).getD (""))
  if s = "" then none else some s

/-- Stub metadata passed by the refund line-item loop. -/
def rliMeta (x : RefundLineItemRec) : SkuMeta :=
  { productTitle := x.line_item.bind (fun l => l.title)
    variantTitle := x.line_item.bind (fun l => l.variant_title)
    productId := x.line_item.bind (fun l => l.product_id)
    variantId := x.line_item.bind (fun l => l.variant_id) }

/-- The stored refund-line row. -/
def mkRefundLineRow (refundId : Nat) (orderId : Int) (x : RefundLineItemRec) :
    RefundLineRow :=
  { refund_id := refundId
    order_id := orderId
    line_item_id := rliLineItemId x
    sku := rliSku x
    quantity := x.quantity.getD 0
    refund_amount := refundAmountOf x }

/-- One refund line item: best-effort stub when a SKU is present, then —
with a line-item id — the statement `insert .. on conflict
(refund_id, line_item_id) do update ..`.  The only unique index on
ops.fact_shopify_refund_line_items is the PARTIAL index
refund_line_items_uniq `(refund_id, line_item_id) where line_item_id is
not null`, and the statement omits that `where` predicate, so the planner
rejects it (42P10) before any row is touched — the keyed path always
errors.  Without a line-item id a plain best-effort insert runs, which
cannot de-duplicate; its `check (quantity >= 0)` rejects a negative
quantity. -/
def applyRefundLineItem (cfg : Config) (db : Db) (refundId : Nat) (orderId : Int)
    (x : RefundLineItemRec) : Except RunErr Db :=
  let skuStep : Except RunErr Db :=
    match rliSku x with
    | some s =>
      match ensureSkuExists cfg db s (rliMeta x) with
      | .error e => .error e
      | .ok (db1, _) => .ok db1
    | none => .ok db
  match skuStep with
  | .error e => .error e
  | .ok db1 =>
    match rliLineItemId x with
    | some _ => .error .conflictSpec
    | none =>
      if x.quantity.getD 0 < 0 then .error .checkViolation
      else
        .ok
          { db1 with
            refund_lines_unkeyed :=
              db1.refund_lines_unkeyed ++ [mkRefundLineRow refundId orderId x] }

/-- Refund-line loop of one refund. -/
def applyRefundLineItems (cfg : Config) (refundId : Nat) (orderId : Int) :
    Db → List RefundLineItemRec → Except RunErr Db
  | db, [] => .ok db
  | db, x :: rest =>
    match applyRefundLineItem cfg db refundId orderId x with
    | .error e => .error e
    | .ok db1 => applyRefundLineItems cfg refundId orderId db1 rest

/-- Refund header upsert into ops.fact_shopify_refunds by refund_id; the
NOT NULL column created_at_refund rejects a null value. -/
def upsertRefundHeader (db : Db) (orderId : Int) (r : RefundRec) : Except RunErr Db :=
  match r.created_at with
  | some _ =>
    .ok { db with refunds := applyOp db.refunds (.ups r.id { order_id := orderId, r := r }) }
  | none => .error .notNullViolation

/-- One refund: header first, then its line items. -/
def applyRefund (cfg : Config) (db : Db) (orderId : Int) (r : RefundRec) :
    Except RunErr Db :=
  match upsertRefundHeader db orderId r with
  | .error e => .error e
  | .ok db1 => applyRefundLineItems cfg r.id orderId db1 (r.refund_line_items.getD [])

/-- upsertRefunds: loop over the order's refunds. -/
def upsertRefunds (cfg : Config) (orderId : Int) :
    Db → List RefundRec → Except RunErr Db
  | db, [] => .ok db
  | db, r :: rest =>
    match applyRefund cfg db orderId r with
    | .error e => .error e
    | .ok db1 => upsertRefunds cfg orderId db1 rest

/-- The timestamp the watermark fold inspects:
`o.updated_at || o.processed_at || o.created_at`. -/
def effTs (o : OrderRec) : Option Int :=
  (o.updated_at.orElse (fun _ => o.processed_at)).orElse (fun _ => o.created_at)

/-- One step of the `maxUpdatedAtSeen` fold:
`if (u && new Date(u) > new Date(max)) max = u`. -/
def bumpMax (m : Int) (o : OrderRec) : Int :=
  match effTs o with
  | some u => if u > m then u else m
  | none => m

/-- One order applied inside its own BEGIN/COMMIT transaction: header, then
the watermark-candidate update, then line items, then refunds.  Any write
error ROLLBACKs to the pre-order state; the watermark candidate is a plain
JavaScript variable, so a mutation made before a later failure survives the
rollback (it is discarded with the run anyway). -/
def applyOrderTxn (cfg : Config) (db : Db) (m : Int) (o : OrderRec) :
    Db × Int × Option RunErr :=
  match upsertOrder db o with
  | .error e => (db, m, some e)
  | .ok db1 =>
    let m1 := bumpMax m o
    match applyLineItems cfg o.id o.tags db1 (o.line_items.getD []) with
    | .error e => (db, m1, some e)
    | .ok db2 =>
      match upsertRefunds cfg o.id db2 (o.refunds.getD []) with
      | .error e => (db, m1, some e)
      | .ok db3 => (db3, m1, none)

/-- One fetched page applied order by order, each in its own transaction;
the first failing order aborts the page with all earlier orders already
committed. -/
def applyBatch (cfg : Config) : Db → Int → List OrderRec → Db × Int × Option RunErr
  | db, m, [] => (db, m, none)
  | db, m, o :: os =>
    match applyOrderTxn cfg db m o with
    | (db1, m1, some e) => (db1, m1, some e)
    | (db1, m1, none) => applyBatch cfg db1 m1 os

/-- One Shopify REST response page: the orders array and whether the Link
header carries a rel="next" page_info token. -/
structure Page where
  orders : List OrderRec
  next : Bool
deriving DecidableEq

/-- Result of a page loop: normal exit, abort by exception, or process kill
at a suspension point (the process exits with no further writes). -/
inductive LoopRes (α : Type) where
  | ok (db : Db) (acc : α)
  | fail (db : Db) (acc : α)
  | killed (db : Db) (acc : α)
deriving DecidableEq

/-- The fetch-and-apply while-loop of main: each iteration takes the next
scripted fetch result (`none` = the resilient client ultimately threw),
stops on an empty page or a missing next-page token.  `kill` injects a
process-level fault (SIGINT/SIGTERM/uncaught failure) before the n-th fetch;
the script running out of responses is a fetch failure. -/
def pageLoop (cfg : Config) :
    List (Option Page) → Option Nat → Db → Int → LoopRes Int
  | fetches, kill, db, m =>
    match kill with
    | some 0 => .killed db m
    | _ =>
      match fetches with
      | [] => .fail db m
      | none :: _ => .fail db m
      | some pg :: rest =>
        if pg.orders.isEmpty then .ok db m
        else
          match applyBatch cfg db m pg.orders with
          | (db1, m1, some _) => .fail db1 m1
          | (db1, m1, none) =>
            if pg.next then pageLoop cfg rest (kill.map (fun n => n - 1)) db1 m1
            else .ok db1 m1

/-- main of shopify_sync_orders_daily.js: read the cursor, plan the window,
open the ledger row, run the page loop, then — only on success — write the
cursor once and close the ledger as succeeded; on an exception close it as
failed; on a process kill the process exits with the ledger untouched (the
script installs no signal or uncaught-exception handlers). -/
def mainShopify (cfg : Config) (now : Int) (fetches : List (Option Page))
    (kill : Option Nat) (db0 : Db) : Db :=
  let cursor := getSyncCursor db0 STATE_KEY
  let lastMax := shopifyLastMax cursor now cfg
  let _updatedAtMin := shopifyUpdatedAtMin cursor now cfg
  let s := startIngestionRun db0 ("shopify") PIPELINE
  match pageLoop cfg fetches kill s.2 lastMax with
  | .killed db2 _ => db2
  | .fail db2 _ => finishIngestionRun db2 s.1 .failed false
  | .ok db2 m =>
    let db3 := setSyncCursor db2 STATE_KEY
      { last_max_updated_at := some m
        last_end_iso := none
        last_max_updated_at_seen := none }
    finishIngestionRun db3 s.1 .succeeded false

end Shopify

end OpsModel

namespace OpsModel

namespace Client

/-- One scripted outcome of an HTTP attempt: the request itself threw
(network/transport failure), or a response with a status code and an
optional parsed Retry-After header (seconds). -/
inductive HttpAttempt where
  | netError
  | resp (status : Nat) (retryAfter : Option Int)
deriving DecidableEq

/-- Terminal outcome of requestWithRetry. -/
inductive ReqOutcome where
  | success (attempt : Nat)
  | transportThrow
  | httpThrow (status : Nat)
  | exhausted
deriving DecidableEq

/-- The retry waits slept by requestWithRetry (in order) plus its outcome.
The rate-limit pacing gap (1000/RPS measured from the previous request) is
wall-clock dependent and outside the model. -/
structure ReqResult where
  waits : List Int
  outcome : ReqOutcome
deriving DecidableEq

/-- The 429 wait:
`Math.max(1000, Number(headers["retry-after"] || 1) * 1000)`. -/
def wait429 (retryAfter : Option Int) : Int := max 1000 (retryAfter.getD 1 * 1000)

/-- Exponential backoff `Math.min(30000, 500 * 2 ** (attempt - 1))`. -/
def backoffOf (attempt : Nat) : Int := min 30000 (500 * 2 ^ (attempt - 1))

/-- The attempt loop shared shape: structural recursion on the number of
attempts remaining (`maxAttempts + 1 - a` at entry), so the function
evaluates by kernel reduction.  This is the body of requestWithRetry of
shopify_sync_orders_daily.js: a transport throw is caught and retried with
exponential backoff (rethrown on the final attempt), 2xx succeeds, 429
waits the Retry-After floor-1s wait, 5xx backs off, any other status throws
immediately; running out of attempts throws a terminal error. -/
def requestAttemptsShopify (maxAttempts : Nat) (script : Nat → HttpAttempt) :
    Nat → Nat → ReqResult
  | 0, _ => { waits := [], outcome := .exhausted }
  | fuel + 1, a =>
    match script a with
    | .netError =>
      if a = maxAttempts then { waits := [], outcome := .transportThrow }
      else
        let r := requestAttemptsShopify maxAttempts script fuel (a + 1)
        { waits := backoffOf a :: r.waits, outcome := r.outcome }
    | .resp s ra =>
      if 200 ≤ s ∧ s < 300 then { waits := [], outcome := .success a }
      else if s = 429 then
        let r := requestAttemptsShopify maxAttempts script fuel (a + 1)
        { waits := wait429 ra :: r.waits, outcome := r.outcome }
      else if 500 ≤ s ∧ s ≤ 599 then
        let r := requestAttemptsShopify maxAttempts script fuel (a + 1)
        { waits := backoffOf a :: r.waits, outcome := r.outcome }
      else { waits := [], outcome := .httpThrow s }

/-- requestWithRetry of shopify_sync_orders_daily.js, started at attempt
`a` (main calls it with a = 1). -/
def requestWithRetryShopify (maxAttempts : Nat) (script : Nat → HttpAttempt)
    (a : Nat) : ReqResult :=
  requestAttemptsShopify maxAttempts script (maxAttempts + 1 - a) a

/-- Attempt loop of requestWithRetry of the Loop client
(src/scripts/lib/loop.js): the `await api.request(..)` call is not wrapped
in try/catch, so a transport failure propagates out of the function
immediately — it is never retried; 429 and 5xx are retried exactly as in
the Shopify client, any other status throws. -/
def requestAttemptsLoop (maxAttempts : Nat) (script : Nat → HttpAttempt) :
    Nat → Nat → ReqResult
  | 0, _ => { waits := [], outcome := .exhausted }
  | fuel + 1, a =>
    match script a with
    | .netError => { waits := [], outcome := .transportThrow }
    | .resp s ra =>
      if 200 ≤ s ∧ s < 300 then { waits := [], outcome := .success a }
      else if s = 429 then
        let r := requestAttemptsLoop maxAttempts script fuel (a + 1)
        { waits := wait429 ra :: r.waits, outcome := r.outcome }
      else if 500 ≤ s ∧ s ≤ 599 then
        let r := requestAttemptsLoop maxAttempts script fuel (a + 1)
        { waits := backoffOf a :: r.waits, outcome := r.outcome }
      else { waits := [], outcome := .httpThrow s }

/-- requestWithRetry of the Loop client, started at attempt `a`. -/
def requestWithRetryLoop (maxAttempts : Nat) (script : Nat → HttpAttempt)
    (a : Nat) : ReqResult :=
  requestAttemptsLoop maxAttempts script (maxAttempts + 1 - a) a

end Client

namespace LoopDaily

/-- Pipeline and state key of loop_sync_subscriptions_daily.js. -/
def PIPELINE : String := "loop_subscriptions_daily"

/-- Cursor key in ops.sync_state. -/
def STATE_KEY : String := "loop_subscriptions_daily"

/-- Cursor interpretation:
`cursor?.last_end_iso || cursor?.last_max_updated_at ||
isoDaysAgo(DEFAULT_LOOKBACK_DAYS)` — a legacy cursor lacking the canonical
field is read through its legacy field. -/
def lastEndIso (cursor : Option CursorVal) (now : Int) (cfg : Config) : Int :=
  ((cursor.bind (fun c => c.last_end_iso)).orElse
    (fun _ => cursor.bind (fun c => c.last_max_updated_at))).getD
    (now - cfg.lookbackDays * 86400000)

/-- Window start:
`OVERLAP_HOURS > 0 ? isoHoursAgoFrom(lastEndIso, OVERLAP_HOURS) : lastEndIso`. -/
def windowStartIso (cursor : Option CursorVal) (now : Int) (cfg : Config) : Int :=
  if cfg.overlapHours > 0 then lastEndIso cursor now cfg - cfg.overlapHours * 3600000
  else lastEndIso cursor now cfg

/-- Window end: `nowIso()` at plan time. -/
def windowEndIso (now : Int) : Int := now

/-- Attributes handed to best-effort stub creation by the line upsert. -/
structure LoopSkuAttrs where
  product_title : Option String
  variant_title : Option String
  shopify_product_id : Option Int
  shopify_variant_id : Option Int
deriving DecidableEq

/-- ensureSkuExistsBestEffort: trim, skip empty, existence check, then
`insert .. on conflict (sku) do nothing` with stub provenance.  It never
fails. -/
def ensureSkuExistsBestEffort (db : Db) (sku : Option String)
    (attrs : LoopSkuAttrs) : Db × Bool :=
  let s := strTrim (sku.getD (""))
  if s = "" then (db, false)
  else
    match lookupA db.dim_sku s with
    | some _ => (db, false)
    | none =>
      ( { db with
          dim_sku := applyOp db.dim_sku
            (.ifAbsent s
              (stubSkuRow
                { product_title := attrs.product_title
                  variant_title := attrs.variant_title
                  product_id := attrs.shopify_product_id
                  variant_id := attrs.shopify_variant_id
                  reason := "seen_in_loop_subscription_line"
                  created_by := PIPELINE })) }
      , true )

/-- upsertSubscriptionHeader: upsert into ops.fact_loop_subscriptions by
subscription_id; the NOT NULL status column rejects a null status.  The
remaining columns are pure projections of the record. -/
def upsertSubscriptionHeader (db : Db) (sub : SubRec) : Except RunErr Db :=
  match sub.status with
  | some _ => .ok { db with loop_subs := applyOp db.loop_subs (.ups sub.id sub) }
  | none => .error .notNullViolation

/-- upsertSubscriptionLine: best-effort stub when the line carries a truthy
SKU, then upsert into ops.fact_loop_subscription_lines by
(subscription_id, line_id); NOT NULL line_id and `check (quantity >= 0)`
reject bad rows. -/
def upsertSubscriptionLine (db : Db) (subscriptionId : Int) (line : SubLineRec) :
    Except RunErr Db :=
  let db1 :=
    if (line.sku.getD ("")) ≠ "" then
      (ensureSkuExistsBestEffort db line.sku
        { product_title := line.productTitle
          variant_title := line.variantTitle
          shopify_product_id := line.productShopifyId
          shopify_variant_id := line.variantShopifyId }).1
    else db
  match line.id with
  | none => .error .notNullViolation
  | some lid =>
    if line.quantity.getD 0 < 0 then .error .checkViolation
    else
      .ok
        { db1 with
          loop_sub_lines := applyOp db1.loop_sub_lines (.ups (subscriptionId, lid) line) }

/-- Line loop of one subscription. -/
def applySubLines (subscriptionId : Int) : Db → List SubLineRec → Except RunErr Db
  | db, [] => .ok db
  | db, line :: rest =>
    match upsertSubscriptionLine db subscriptionId line with
    | .error e => .error e
    | .ok db1 => applySubLines subscriptionId db1 rest

/-- One step of the `maxUpdatedAtSeen` fold (a null start and a skip on
records without updatedAt). -/
def bumpMaxSub (m : Option Int) (sub : SubRec) : Option Int :=
  match sub.updatedAt with
  | some u =>
    match m with
    | none => some u
    | some mv => if u > mv then some u else some mv
  | none => m

/-- The record loop inside one page's transaction: per subscription the
watermark candidate is updated, then the header and its lines are
upserted. -/
def applySubs : Db → Option Int → List SubRec → (Except RunErr Db) × Option Int
  | db, m, [] => (.ok db, m)
  | db, m, sub :: rest =>
    let m1 := bumpMaxSub m sub
    match upsertSubscriptionHeader db sub with
    | .error e => (.error e, m1)
    | .ok db1 =>
      match applySubLines sub.id db1 (sub.lines.getD []) with
      | .error e => (.error e, m1)
      | .ok db2 => applySubs db2 m1 rest

/-- One fetched page under BEGIN/COMMIT: an error anywhere in the page
ROLLBACKs every write of the page, returning the pre-page state (the
watermark candidate is a plain variable and keeps its mutations, which the
failing run discards). -/
def applyPageTxn (db : Db) (m : Option Int) (subs : List SubRec) :
    Db × Option Int × Option RunErr :=
  match applySubs db m subs with
  | (.ok db1, m1) => (db1, m1, none)
  | (.error e, m1) => (db, m1, some e)

/-- One Loop API page: the data array and pageInfo.hasNextPage. -/
structure LoopPage where
  data : List SubRec
  hasNextPage : Bool
deriving DecidableEq

/-- The page loop of main: stop on an empty data array or hasNextPage =
false; each page is one transaction; a scripted `none` (the client threw)
or script exhaustion aborts the run. -/
def pageLoop : List (Option LoopPage) → Db → Option Int → Shopify.LoopRes (Option Int)
  | [], db, m => .fail db m
  | none :: _, db, m => .fail db m
  | some pg :: rest, db, m =>
    if pg.data.isEmpty then .ok db m
    else
      match applyPageTxn db m pg.data with
      | (db1, m1, some _) => .fail db1 m1
      | (db1, m1, none) =>
        if pg.hasNextPage then pageLoop rest db1 m1 else .ok db1 m1

/-- main of loop_sync_subscriptions_daily.js: read the cursor, plan the
window, open the ledger row, run the page loop; only on success write the
canonical cursor (window end plus max updatedAt seen) once and close the
ledger as succeeded, otherwise close it as failed. -/
def mainLoopDaily (cfg : Config) (now : Int) (fetches : List (Option LoopPage))
    (db0 : Db) : Db :=
  let cursor := getSyncCursor db0 STATE_KEY
  let _windowStart := windowStartIso cursor now cfg
  let windowEnd := windowEndIso now
  let s := startIngestionRun db0 ("loop") PIPELINE
  match pageLoop fetches s.2 none with
  | .killed db2 _ => db2
  | .fail db2 _ => finishIngestionRun db2 s.1 .failed false
  | .ok db2 m =>
    let db3 := setSyncCursor db2 STATE_KEY
      { last_max_updated_at := none
        last_end_iso := some windowEnd
        last_max_updated_at_seen := m }
    finishIngestionRun db3 s.1 .succeeded false

end LoopDaily

namespace Ingestion

/-- One step of a handler running under withIngestionRun: normal work, a
thrown error (caught by the wrapper's catch), or a process-level fault
(signal, uncaughtException, unhandledRejection) intercepted by
gracefulShutdown. -/
inductive HEvent where
  | work
  | raise
  | fault
deriving DecidableEq

/-- Control flow of withIngestionRun after the ledger row is opened: a
fault triggers gracefulShutdown, which rolls back any open transaction and
marks the run failed with `terminated: true` before the process exits; a
thrown error is caught and marks the run failed; a handler that runs to
completion marks it succeeded. -/
def runEvents (runId : Nat) : List HEvent → Db → Db
  | [], db => finishIngestionRun db runId .succeeded false
  | .work :: rest, db => runEvents runId rest db
  | .raise :: _, db => finishIngestionRun db runId .failed false
  | .fault :: _, db => finishIngestionRun db runId .failed true

/-- withIngestionRun (src/scripts/lib): open the ledger row, install the
signal/uncaught handlers, run the handler, finalize the row on every path. -/
def withIngestionRun (source pipeline : String) (events : List HEvent)
    (db0 : Db) : Db :=
  let s := startIngestionRun db0 source pipeline
  runEvents s.1 events s.2

end Ingestion

end OpsModel

namespace OpsModel

namespace Client

theorem requestWithRetryShopify_step (maxA : Nat) (script : Nat → HttpAttempt)
    (a : Nat) (ha : a ≤ maxA) :
    requestWithRetryShopify maxA script a =
      match script a with
      | .netError =>
        if a = maxA then { waits := [], outcome := .transportThrow }
        else
          { waits := backoffOf a :: (requestWithRetryShopify maxA script (a + 1)).waits
            outcome := (requestWithRetryShopify maxA script (a + 1)).outcome }
      | .resp s ra =>
        if 200 ≤ s ∧ s < 300 then { waits := [], outcome := .success a }
        else if s = 429 then
          { waits := wait429 ra :: (requestWithRetryShopify maxA script (a + 1)).waits
            outcome := (requestWithRetryShopify maxA script (a + 1)).outcome }
        else if 500 ≤ s ∧ s ≤ 599 then
          { waits := backoffOf a :: (requestWithRetryShopify maxA script (a + 1)).waits
            outcome := (requestWithRetryShopify maxA script (a + 1)).outcome }
        else { waits := [], outcome := .httpThrow s } := by
  unfold requestWithRetryShopify
  rw [show maxA + 1 - a = (maxA - a) + 1 from by omega,
      show maxA + 1 - (a + 1) = maxA - a from by omega]
  rfl

theorem requestWithRetryLoop_step (maxA : Nat) (script : Nat → HttpAttempt)
    (a : Nat) (ha : a ≤ maxA) :
    requestWithRetryLoop maxA script a =
      match script a with
      | .netError => { waits := [], outcome := .transportThrow }
      | .resp s ra =>
        if 200 ≤ s ∧ s < 300 then { waits := [], outcome := .success a }
        else if s = 429 then
          { waits := wait429 ra :: (requestWithRetryLoop maxA script (a + 1)).waits
            outcome := (requestWithRetryLoop maxA script (a + 1)).outcome }
        else if 500 ≤ s ∧ s ≤ 599 then
          { waits := backoffOf a :: (requestWithRetryLoop maxA script (a + 1)).waits
            outcome := (requestWithRetryLoop maxA script (a + 1)).outcome }
        else { waits := [], outcome := .httpThrow s } := by
  unfold requestWithRetryLoop
  rw [show maxA + 1 - a = (maxA - a) + 1 from by omega,
      show maxA + 1 - (a + 1) = maxA - a from by omega]
  rfl

/-- A run of k transport failures followed by a 2xx, within the budget, is
absorbed by the Shopify client: success at attempt a + k after exactly the
exponential backoffs of attempts a, .., a + k − 1. -/
theorem requestWithRetryShopify_net_prefix (maxA : Nat)
    (script : Nat → HttpAttempt) :
    ∀ (k a : Nat), a + k ≤ maxA →
    (∀ i, a ≤ i → i < a + k → script i = .netError) →
    script (a + k) = .resp 200 none →
    requestWithRetryShopify maxA script a =
      { waits := (List.range k).map (fun i => backoffOf (a + i))
        outcome := .success (a + k) } := by
  intro k
  induction k with
  | zero =>
    intro a hle _ hok
    rw [requestWithRetryShopify_step maxA script a (by omega)]
    simp only [Nat.add_zero] at hok
    rw [hok]
    norm_num
  | succ k ih =>
    intro a hle hnet hok
    have hne : script a = .netError := hnet a (Nat.le_refl a) (by omega)
    rw [requestWithRetryShopify_step maxA script a (by omega), hne]
    have hamax : ¬ a = maxA := by omega
    rw [if_neg hamax]
    have hrec := ih (a + 1) (by omega)
      (fun i h1 h2 => hnet i (by omega) (by omega))
      (by rw [show a + 1 + k = a + (k + 1) from by omega]; exact hok)
    rw [hrec]
    simp only [List.range_succ_eq_map, List.map_cons, List.map_map,
      Client.ReqResult.mk.injEq]
    constructor
    · rw [Nat.add_zero]
      have hmap : List.map (fun i => backoffOf (a + 1 + i)) (List.range k)
          = List.map ((fun i => backoffOf (a + i)) ∘ Nat.succ) (List.range k) := by
        apply List.map_congr_left
        intro i _
        simp only [Function.comp_apply]
        rw [show a + 1 + i = a + (i + 1) from by omega]
      rw [hmap, Nat.add_zero]
    · rw [show a + 1 + k = a + (k + 1) from by omega]

end Client

/-- C7: once any row — stub or non-stub — exists in ops.dim_sku for a
(trimmed) SKU, a later stub-creation attempt for the same key is a no-op in
both entry points: the table is returned unchanged, no column of the
pre-existing row is overwritten, and no stub insertion is reported. -/
theorem stub_non_clobber (cfg : Config) (db : Db) (sku : String)
    (m : Shopify.SkuMeta) (attrs : LoopDaily.LoopSkuAttrs) (row : SkuRow)
    (htrim : strTrim sku = sku) (h : lookupA db.dim_sku sku = some row) :
    Shopify.ensureSkuExists cfg db sku m = .ok (db, false) ∧
    LoopDaily.ensureSkuExistsBestEffort db (some sku) attrs = (db, false) := by
  constructor
  · simp [Shopify.ensureSkuExists, h]
  · unfold LoopDaily.ensureSkuExistsBestEffort
    simp only [Option.getD_some, htrim]
    by_cases he : sku = ""
    · simp [he]
    · simp [he, h]

/-- Witness for C7 at a concrete one-row table. -/
theorem stub_non_clobber_witness :
    Shopify.ensureSkuExists ⟨7, 48, true⟩
      { emptyDb with
        dim_sku := [("THM-1", { is_stub := false, product_title := some ("x")
                                variant_title := none, shopify_product_id := none
                                shopify_variant_id := none, stub_reason := none
                                created_by := none })] }
      "THM-1" ⟨none, none, none, none⟩ =
      .ok
        ( { emptyDb with
            dim_sku := [("THM-1", { is_stub := false, product_title := some ("x")
                                    variant_title := none, shopify_product_id := none
                                    shopify_variant_id := none, stub_reason := none
                                    created_by := none })] }
        , false ) :=
  (stub_non_clobber ⟨7, 48, true⟩
    { emptyDb with
      dim_sku := [("THM-1", { is_stub := false, product_title := some ("x")
                              variant_title := none, shopify_product_id := none
                              shopify_variant_id := none, stub_reason := none
                              created_by := none })] }
    "THM-1" ⟨none, none, none, none⟩ ⟨none, none, none, none⟩
    { is_stub := false, product_title := some ("x"), variant_title := none
      shopify_product_id := none, shopify_variant_id := none, stub_reason := none
      created_by := none }
    (by decide) (by decide)).1

/-- C8: on a 429 response whose parsed Retry-After is `ra`, both clients
sleep exactly `max 1000 (ra.getD 1 * 1000)` milliseconds and then retry the
same request at the next attempt; the wait is 5000 ms for Retry-After 5 and
never below 1000 ms. -/
theorem retry_after_wait (maxA a : Nat) (script : Nat → Client.HttpAttempt)
    (ra : Option Int) (ha : a ≤ maxA) (hs : script a = .resp 429 ra) :
    (Client.requestWithRetryShopify maxA script a).waits =
      Client.wait429 ra :: (Client.requestWithRetryShopify maxA script (a + 1)).waits ∧
    (Client.requestWithRetryShopify maxA script a).outcome =
      (Client.requestWithRetryShopify maxA script (a + 1)).outcome ∧
    (Client.requestWithRetryLoop maxA script a).waits =
      Client.wait429 ra :: (Client.requestWithRetryLoop maxA script (a + 1)).waits ∧
    (Client.requestWithRetryLoop maxA script a).outcome =
      (Client.requestWithRetryLoop maxA script (a + 1)).outcome ∧
    Client.wait429 ra = max 1000 (ra.getD 1 * 1000) ∧
    Client.wait429 (some 5) = 5000 ∧
    1000 ≤ Client.wait429 ra := by
  rw [Client.requestWithRetryShopify_step maxA script a ha,
      Client.requestWithRetryLoop_step maxA script a ha, hs]
  norm_num [Client.wait429]

/-- Witness for C8: a constant-429 script with Retry-After 5. -/
theorem retry_after_wait_witness :
    (Client.requestWithRetryShopify 8 (fun _ => .resp 429 (some 5)) 1).waits =
      Client.wait429 (some 5) ::
        (Client.requestWithRetryShopify 8 (fun _ => .resp 429 (some 5)) 2).waits ∧
    Client.wait429 (some 5) = 5000 :=
  ⟨(retry_after_wait 8 1 (fun _ => .resp 429 (some 5)) (some 5) (by decide) rfl).1,
   (retry_after_wait 8 1 (fun _ => .resp 429 (some 5)) (some 5) (by decide)
      rfl).2.2.2.2.2.1⟩

/-- C9: a legacy cursor that lacks last_end_iso but carries
last_max_updated_at is read through the legacy field: the planner treats it
as the window end, and the computed window start is that value minus the
overlap — not the lookback default. -/
theorem legacy_cursor_migration (c : CursorVal) (now : Int) (cfg : Config)
    (legacy : Int) (hoh : 0 ≤ cfg.overlapHours) (hnoEnd : c.last_end_iso = none)
    (hleg : c.last_max_updated_at = some legacy) :
    LoopDaily.lastEndIso (some c) now cfg = legacy ∧
    LoopDaily.windowStartIso (some c) now cfg =
      legacy - cfg.overlapHours * 3600000 := by
  have hbase : LoopDaily.lastEndIso (some c) now cfg = legacy := by
    simp [LoopDaily.lastEndIso, hnoEnd, hleg, Option.orElse]
  refine ⟨hbase, ?_⟩
  unfold LoopDaily.windowStartIso
  by_cases hpos : cfg.overlapHours > 0
  · rw [if_pos hpos, hbase]
  · have hz : cfg.overlapHours = 0 := le_antisymm (not_lt.mp hpos) hoh
    rw [if_neg hpos, hbase, hz]
    ring

/-- Witness for C9 at a concrete legacy cursor. -/
theorem legacy_cursor_migration_witness :
    LoopDaily.lastEndIso
      (some { last_max_updated_at := some 500000000, last_end_iso := none
              last_max_updated_at_seen := none }) 864000000 ⟨7, 48, true⟩ =
      500000000 ∧
    LoopDaily.windowStartIso
      (some { last_max_updated_at := some 500000000, last_end_iso := none
              last_max_updated_at_seen := none }) 864000000 ⟨7, 48, true⟩ =
      500000000 - 48 * 3600000 :=
  legacy_cursor_migration _ 864000000 ⟨7, 48, true⟩ 500000000 (by decide) rfl rfl

/-- C4 counterexample: first-ever run, no cursor, lookback 7 days, overlap
48 h, plan time day 10 — both planners compute a window start of day 1
(now − lookback − overlap), not the claimed day 3 (now − lookback): the
overlap is applied even though no cursor exists. -/
theorem first_run_window_counterexample :
    Shopify.shopifyUpdatedAtMin none (10 * 86400000) ⟨7, 48, true⟩ =
      1 * 86400000 ∧
    LoopDaily.windowStartIso none (10 * 86400000) ⟨7, 48, true⟩ =
      1 * 86400000 ∧
    LoopDaily.windowEndIso (10 * 86400000) = 10 * 86400000 ∧
    (1 * 86400000 : Int) ≠ 3 * 86400000 := by
  refine ⟨by decide, by decide, rfl, by decide⟩

/-- C4 amended: on a first-ever run with no persisted cursor and a positive
overlap, both planners compute windowStart = now − lookback·86400000 −
overlap·3600000 (the overlap is applied to the lookback default as well,
not only when a cursor exists) and the loop planner's windowEnd = now; for
lookback 7 d, overlap 48 h, now = day 10 this is the window
[day 1, day 10). -/
theorem first_run_window_amended (now lb oh : Int) (stubs : Bool)
    (hoh : 0 < oh) :
    Shopify.shopifyUpdatedAtMin none now ⟨lb, oh, stubs⟩ =
      now - lb * 86400000 - oh * 3600000 ∧
    LoopDaily.windowStartIso none now ⟨lb, oh, stubs⟩ =
      now - lb * 86400000 - oh * 3600000 ∧
    LoopDaily.windowEndIso now = now := by
  refine ⟨?_, ?_, rfl⟩
  · simp [Shopify.shopifyUpdatedAtMin, Shopify.shopifyLastMax, Shopify.isoDaysAgo,
      Shopify.isoHoursAgoFrom, hoh]
  · simp [LoopDaily.windowStartIso, LoopDaily.lastEndIso, hoh, Option.orElse]

/-- Witness for C4 amended at day 10 / 7 d / 48 h. -/
theorem first_run_window_amended_witness :
    Shopify.shopifyUpdatedAtMin none (10 * 86400000) ⟨7, 48, true⟩ =
      10 * 86400000 - 7 * 86400000 - 48 * 3600000 :=
  (first_run_window_amended (10 * 86400000) 7 48 true (by decide)).1

/-- C5 counterexample: on a transport failure at attempt 1 (with a success
available at attempt 2), the Loop client does not retry at all — the throw
propagates immediately, with no backoff wait — while the Shopify client
retries and succeeds at attempt 2 after the 500 ms backoff.  This refutes
the claim that every client instance, including the Loop client, retries
transport failures with exponential backoff. -/
theorem transport_retry_counterexample :
    Client.requestWithRetryLoop 8
      (fun a => if a = 1 then .netError else .resp 200 none) 1 =
      { waits := [], outcome := .transportThrow } ∧
    Client.requestWithRetryShopify 8
      (fun a => if a = 1 then .netError else .resp 200 none) 1 =
      { waits := [Client.backoffOf 1], outcome := .success 2 } ∧
    Client.backoffOf 1 = 500 := by
  refine ⟨by decide, by decide, by decide⟩

/-- C5 amended: transport failures are retried with backoff
min(30 s, 500 ms·2^(attempt−1)) up to the bounded attempt budget by the
Shopify daily client; the Loop client does not catch them — a transport
failure at any attempt propagates immediately with no wait and no further
attempt. -/
theorem transport_retry_amended (maxA k : Nat) (script : Nat → Client.HttpAttempt)
    (hk : k < maxA)
    (hnet : ∀ i, 1 ≤ i → i < 1 + k → script i = .netError)
    (hok : script (1 + k) = .resp 200 none) :
    Client.requestWithRetryShopify maxA script 1 =
      { waits := (List.range k).map (fun i => Client.backoffOf (1 + i))
        outcome := .success (1 + k) } ∧
    (∀ (s2 : Nat → Client.HttpAttempt) (a : Nat), s2 a = .netError → a ≤ maxA →
      Client.requestWithRetryLoop maxA s2 a =
        { waits := [], outcome := .transportThrow }) ∧
    (∀ a : Nat, Client.backoffOf a = min 30000 (500 * 2 ^ (a - 1))) := by
  refine ⟨?_, ?_, fun a => rfl⟩
  · exact Client.requestWithRetryShopify_net_prefix maxA script k 1 (by omega) hnet hok
  · intro s2 a hs2 ha
    rw [Client.requestWithRetryLoop_step maxA s2 a ha, hs2]

/-- Witness for C5 amended: two transport failures then a 2xx. -/
theorem transport_retry_amended_witness :
    Client.requestWithRetryShopify 8
      (fun a => if a ≤ 2 then .netError else .resp 200 none) 1 =
      { waits := (List.range 2).map (fun i => Client.backoffOf (1 + i))
        outcome := .success 3 } :=
  (transport_retry_amended 8 2
    (fun a => if a ≤ 2 then .netError else .resp 200 none) (by decide)
    (by decide) (by decide)).1

end OpsModel

namespace OpsModel

/-- The ledger/cursor slice of the state (sync_state, runs, id generator,
cursor-write counter): domain-table writes leave it unchanged. -/
def metaOf (db : Db) :
    List (String × CursorVal) × List (Nat × RunRow) × Nat × Nat :=
  (db.sync_state, db.runs, db.nextRunId, db.cursorWrites)

theorem metaOf_fields {a b : Db} (h : metaOf a = metaOf b) :
    a.sync_state = b.sync_state ∧ a.runs = b.runs ∧
    a.nextRunId = b.nextRunId ∧ a.cursorWrites = b.cursorWrites := by
  simp only [metaOf, Prod.mk.injEq] at h
  exact h

namespace Shopify

theorem ensureSkuExists_meta {cfg : Config} {db : Db} {sku : String}
    {m : SkuMeta} {r : Db × Bool} (h : ensureSkuExists cfg db sku m = .ok r) :
    metaOf r.1 = metaOf db := by
  unfold ensureSkuExists at h
  cases hl : lookupA db.dim_sku sku with
  | some row =>
    rw [hl] at h
    injection h with h
    subst h
    rfl
  | none =>
    rw [hl] at h
    by_cases hins : cfg.insertStubSkus = false
    · rw [if_pos hins] at h
      exact Except.noConfusion h
    · rw [if_neg hins] at h
      injection h with h
      subst h
      rfl

theorem upsertOrder_meta {db db1 : Db} {o : OrderRec}
    (h : upsertOrder db o = .ok db1) : metaOf db1 = metaOf db := by
  unfold upsertOrder at h
  cases hp : o.processed_at with
  | none =>
    rw [hp] at h
    cases hc : o.currency <;> rw [hc] at h <;> exact Except.noConfusion h
  | some t =>
    cases hc : o.currency with
    | none =>
      rw [hp, hc] at h
      exact Except.noConfusion h
    | some c =>
      rw [hp, hc] at h
      injection h with h
      subst h
      rfl

theorem upsertLineItem_meta {cfg : Config} {db db1 : Db} {oid : Int}
    {tags : List String} {li : LineItemRec}
    (h : upsertLineItem cfg db oid tags li = .ok db1) : metaOf db1 = metaOf db := by
  simp only [upsertLineItem] at h
  split at h
  · injection h with h
    subst h
    rfl
  · split at h
    · exact Except.noConfusion h
    · rename_i p heq
      split at h
      · exact Except.noConfusion h
      · injection h with h
        subst h
        exact ensureSkuExists_meta heq

theorem applyLineItems_meta {cfg : Config} {oid : Int} {tags : List String} :
    ∀ {lis : List LineItemRec} {db db1 : Db},
    applyLineItems cfg oid tags db lis = .ok db1 → metaOf db1 = metaOf db := by
  intro lis
  induction lis with
  | nil =>
    intro db db1 h
    injection h with h
    subst h
    rfl
  | cons li rest ih =>
    intro db db1 h
    unfold applyLineItems at h
    split at h
    · exact Except.noConfusion h
    · rename_i dbm heq
      exact (ih h).trans (upsertLineItem_meta heq)

theorem applyRefundLineItem_meta {cfg : Config} {db db1 : Db} {rid : Nat}
    {oid : Int} {x : RefundLineItemRec}
    (h : applyRefundLineItem cfg db rid oid x = .ok db1) : metaOf db1 = metaOf db := by
  simp only [applyRefundLineItem] at h
  split at h
  · exact Except.noConfusion h
  · rename_i x1 dbs heq
    have hmeta : metaOf dbs = metaOf db := by
      split at heq
      · split at heq
        · exact Except.noConfusion heq
        · rename_i p heq2
          injection heq with heq
          subst heq
          exact ensureSkuExists_meta heq2
      · injection heq with heq
        subst heq
        rfl
    split at h
    · exact Except.noConfusion h
    · split at h
      · exact Except.noConfusion h
      · injection h with h
        subst h
        exact hmeta

theorem applyRefundLineItems_meta {cfg : Config} {rid : Nat} {oid : Int} :
    ∀ {xs : List RefundLineItemRec} {db db1 : Db},
    applyRefundLineItems cfg rid oid db xs = .ok db1 → metaOf db1 = metaOf db := by
  intro xs
  induction xs with
  | nil =>
    intro db db1 h
    injection h with h
    subst h
    rfl
  | cons x rest ih =>
    intro db db1 h
    unfold applyRefundLineItems at h
    split at h
    · exact Except.noConfusion h
    · rename_i dbm heq
      exact (ih h).trans (applyRefundLineItem_meta heq)

theorem upsertRefundHeader_meta {db db1 : Db} {oid : Int} {r : RefundRec}
    (h : upsertRefundHeader db oid r = .ok db1) : metaOf db1 = metaOf db := by
  unfold upsertRefundHeader at h
  cases hc : r.created_at with
  | none =>
    rw [hc] at h
    exact Except.noConfusion h
  | some t =>
    rw [hc] at h
    injection h with h
    subst h
    rfl

theorem applyRefund_meta {cfg : Config} {db db1 : Db} {oid : Int} {r : RefundRec}
    (h : applyRefund cfg db oid r = .ok db1) : metaOf db1 = metaOf db := by
  unfold applyRefund at h
  split at h
  · exact Except.noConfusion h
  · rename_i dbm heq
    exact (applyRefundLineItems_meta h).trans (upsertRefundHeader_meta heq)

theorem upsertRefunds_meta {cfg : Config} {oid : Int} :
    ∀ {rs : List RefundRec} {db db1 : Db},
    upsertRefunds cfg oid db rs = .ok db1 → metaOf db1 = metaOf db := by
  intro rs
  induction rs with
  | nil =>
    intro db db1 h
    injection h with h
    subst h
    rfl
  | cons r rest ih =>
    intro db db1 h
    unfold upsertRefunds at h
    split at h
    · exact Except.noConfusion h
    · rename_i dbm heq
      exact (ih h).trans (applyRefund_meta heq)

theorem applyOrderTxn_meta (cfg : Config) (db : Db) (m : Int) (o : OrderRec) :
    metaOf (applyOrderTxn cfg db m o).1 = metaOf db := by
  unfold applyOrderTxn
  split
  · rfl
  · rename_i db1 heq
    split
    · rfl
    · rename_i db2 heq2
      split
      · rfl
      · rename_i db3 heq3
        exact ((upsertRefunds_meta heq3).trans (applyLineItems_meta heq2)).trans
          (upsertOrder_meta heq)

theorem applyBatch_meta (cfg : Config) :
    ∀ (os : List OrderRec) (db : Db) (m : Int),
    metaOf (applyBatch cfg db m os).1 = metaOf db := by
  intro os
  induction os with
  | nil => intro db m; rfl
  | cons o rest ih =>
    intro db m
    have hmeta := applyOrderTxn_meta cfg db m o
    unfold applyBatch
    rcases h : applyOrderTxn cfg db m o with ⟨db1, m1, e⟩
    rw [h] at hmeta
    cases e with
    | some err => simpa using hmeta
    | none => simpa using (ih db1 m1).trans hmeta

/-- The state carried by a loop result, whichever way it ended. -/
def resDb {α : Type} : LoopRes α → Db
  | .ok db _ => db
  | .fail db _ => db
  | .killed db _ => db

theorem pageLoop_meta (cfg : Config) :
    ∀ (fetches : List (Option Page)) (kill : Option Nat) (db : Db) (m : Int),
    metaOf (resDb (pageLoop cfg fetches kill db m)) = metaOf db := by
  intro fetches
  induction fetches with
  | nil =>
    intro kill db m
    unfold pageLoop
    rcases kill with _ | n
    · rfl
    · cases n <;> rfl
  | cons f rest ih =>
    intro kill db m
    unfold pageLoop
    have hbody :
        metaOf (resDb
          (match f :: rest with
            | [] => LoopRes.fail db m
            | none :: _ => LoopRes.fail db m
            | some pg :: rest =>
              if pg.orders.isEmpty then LoopRes.ok db m
              else
                match applyBatch cfg db m pg.orders with
                | (db1, m1, some _) => LoopRes.fail db1 m1
                | (db1, m1, none) =>
                  if pg.next then
                    pageLoop cfg rest (kill.map (fun n => n - 1)) db1 m1
                  else LoopRes.ok db1 m1)) = metaOf db := by
      cases f with
      | none => rfl
      | some pg =>
        by_cases hemp : pg.orders.isEmpty
        · simp only [hemp, if_pos]
          rfl
        · simp only [hemp, if_neg, Bool.false_eq_true, not_false_eq_true]
          have hb := applyBatch_meta cfg pg.orders db m
          rcases hab : applyBatch cfg db m pg.orders with ⟨db1, m1, e⟩
          rw [hab] at hb
          cases e with
          | some err => simpa using hb
          | none =>
            simp only at hb ⊢
            by_cases hnext : pg.next = true
            · simp only [hnext, if_pos]
              exact (ih (kill.map (fun n => n - 1)) db1 m1).trans hb
            · simp only [hnext, if_neg, Bool.false_eq_true, not_false_eq_true]
              exact hb
    rcases kill with _ | n
    · exact hbody
    · cases n with
      | zero => rfl
      | succ n2 => exact hbody

end Shopify

end OpsModel

namespace OpsModel

namespace LoopDaily

theorem ensureSkuExistsBestEffort_meta (db : Db) (sku : Option String)
    (attrs : LoopSkuAttrs) :
    metaOf (ensureSkuExistsBestEffort db sku attrs).1 = metaOf db := by
  simp only [ensureSkuExistsBestEffort]
  split
  · rfl
  · split <;> rfl

theorem upsertSubscriptionHeader_meta {db db1 : Db} {sub : SubRec}
    (h : upsertSubscriptionHeader db sub = .ok db1) : metaOf db1 = metaOf db := by
  unfold upsertSubscriptionHeader at h
  cases hs : sub.status with
  | none =>
    rw [hs] at h
    exact Except.noConfusion h
  | some s =>
    rw [hs] at h
    injection h with h
    subst h
    rfl

theorem upsertSubscriptionLine_meta {db db1 : Db} {sid : Int} {line : SubLineRec}
    (h : upsertSubscriptionLine db sid line = .ok db1) : metaOf db1 = metaOf db := by
  simp only [upsertSubscriptionLine] at h
  have hmeta : ∀ (c : Prop) [Decidable c],
      metaOf (if c then
        (ensureSkuExistsBestEffort db line.sku
          { product_title := line.productTitle
            variant_title := line.variantTitle
            shopify_product_id := line.productShopifyId
            shopify_variant_id := line.variantShopifyId }).1
      else db) = metaOf db := by
    intro c hc
    by_cases h2 : c
    · rw [if_pos h2]
      exact ensureSkuExistsBestEffort_meta db line.sku _
    · rw [if_neg h2]
  split at h
  · exact Except.noConfusion h
  · split at h
    · exact Except.noConfusion h
    · injection h with h
      subst h
      exact hmeta _

theorem applySubLines_meta {sid : Int} :
    ∀ {lines : List SubLineRec} {db db1 : Db},
    applySubLines sid db lines = .ok db1 → metaOf db1 = metaOf db := by
  intro lines
  induction lines with
  | nil =>
    intro db db1 h
    injection h with h
    subst h
    rfl
  | cons line rest ih =>
    intro db db1 h
    unfold applySubLines at h
    split at h
    · exact Except.noConfusion h
    · rename_i dbm heq
      exact (ih h).trans (upsertSubscriptionLine_meta heq)

theorem applySubs_ok_meta :
    ∀ {subs : List SubRec} {db db1 : Db} {m m1 : Option Int},
    applySubs db m subs = (.ok db1, m1) → metaOf db1 = metaOf db := by
  intro subs
  induction subs with
  | nil =>
    intro db db1 m m1 h
    simp only [applySubs, Prod.mk.injEq] at h
    have h2 := h.1
    injection h2 with h2
    rw [h2]
  | cons sub rest ih =>
    intro db db1 m m1 h
    unfold applySubs at h
    split at h
    · simp only [Prod.mk.injEq] at h
      exact absurd h.1 (by simp)
    · rename_i dbh heqh
      split at h
      · simp only [Prod.mk.injEq] at h
        exact absurd h.1 (by simp)
      · rename_i dbl heql
        exact ((ih h).trans (applySubLines_meta heql)).trans
          (upsertSubscriptionHeader_meta heqh)

theorem applyPageTxn_meta (db : Db) (m : Option Int) (subs : List SubRec) :
    metaOf (applyPageTxn db m subs).1 = metaOf db := by
  unfold applyPageTxn
  rcases happ : applySubs db m subs with ⟨exc, m1⟩
  cases exc with
  | ok db1 => exact applySubs_ok_meta happ
  | error e => rfl

theorem pageLoopDaily_meta :
    ∀ (fetches : List (Option LoopPage)) (db : Db) (m : Option Int),
    metaOf (Shopify.resDb (pageLoop fetches db m)) = metaOf db := by
  intro fetches
  induction fetches with
  | nil => intro db m; rfl
  | cons f rest ih =>
    intro db m
    unfold pageLoop
    cases f with
    | none => rfl
    | some pg =>
      by_cases hemp : pg.data.isEmpty
      · simp only [hemp, if_pos]
        rfl
      · simp only [hemp, if_neg, Bool.false_eq_true, not_false_eq_true]
        have hb := applyPageTxn_meta db m pg.data
        rcases hab : applyPageTxn db m pg.data with ⟨db1, m1, e⟩
        rw [hab] at hb
        cases e with
        | some err => simpa using hb
        | none =>
          simp only at hb ⊢
          by_cases hnext : pg.hasNextPage = true
          · simp only [hnext, if_pos]
            exact (ih db1 m1).trans hb
          · simp only [hnext, if_neg, Bool.false_eq_true, not_false_eq_true]
            exact hb

end LoopDaily

theorem finishIngestionRun_meta (db : Db) (id : Nat) (st : RunStatus) (t : Bool) :
    (finishIngestionRun db id st t).sync_state = db.sync_state ∧
    (finishIngestionRun db id st t).cursorWrites = db.cursorWrites ∧
    (finishIngestionRun db id st t).nextRunId = db.nextRunId := by
  unfold finishIngestionRun
  cases h : lookupA db.runs id <;> simp

theorem runStatusOf_finish_self (db : Db) (id : Nat) (st : RunStatus) (t : Bool)
    (row : RunRow) (h : lookupA db.runs id = some row) :
    runStatusOf (finishIngestionRun db id st t) id = some st := by
  unfold finishIngestionRun runStatusOf
  rw [h]
  have hmem : id ∈ keysA db.runs :=
    (lookupA_isSome_iff_mem db.runs id).mp (by rw [h]; rfl)
  simp only
  rw [lookupA_setVal_self id _ db.runs hmem]
  rfl

theorem runTerminatedOf_finish_self (db : Db) (id : Nat) (st : RunStatus) (t : Bool)
    (row : RunRow) (h : lookupA db.runs id = some row) :
    runTerminatedOf (finishIngestionRun db id st t) id = some (row.terminated || t) := by
  unfold finishIngestionRun runTerminatedOf
  rw [h]
  have hmem : id ∈ keysA db.runs :=
    (lookupA_isSome_iff_mem db.runs id).mp (by rw [h]; rfl)
  simp only
  rw [lookupA_setVal_self id _ db.runs hmem]
  rfl

theorem startRun_lookup (db : Db) (s p : String) :
    lookupA (startIngestionRun db s p).2.runs db.nextRunId =
      some { source := s, pipeline := p, status := .started, terminated := false } := by
  unfold startIngestionRun
  exact lookupA_applyOp_ups_self _ _ _

theorem mainShopify_eq (cfg : Config) (now : Int) (fetches : List (Option Shopify.Page))
    (kill : Option Nat) (db0 : Db) :
    Shopify.mainShopify cfg now fetches kill db0 =
      match Shopify.pageLoop cfg fetches kill
          (startIngestionRun db0 ("shopify") Shopify.PIPELINE).2
          (Shopify.shopifyLastMax (getSyncCursor db0 Shopify.STATE_KEY) now cfg) with
      | .killed db2 _ => db2
      | .fail db2 _ => finishIngestionRun db2 db0.nextRunId .failed false
      | .ok db2 m =>
        finishIngestionRun
          (setSyncCursor db2 Shopify.STATE_KEY
            { last_max_updated_at := some m
              last_end_iso := none
              last_max_updated_at_seen := none })
          db0.nextRunId .succeeded false := rfl

theorem mainLoopDaily_eq (cfg : Config) (now : Int)
    (fetches : List (Option LoopDaily.LoopPage)) (db0 : Db) :
    LoopDaily.mainLoopDaily cfg now fetches db0 =
      match LoopDaily.pageLoop fetches
          (startIngestionRun db0 ("loop") LoopDaily.PIPELINE).2 none with
      | .killed db2 _ => db2
      | .fail db2 _ => finishIngestionRun db2 db0.nextRunId .failed false
      | .ok db2 m =>
        finishIngestionRun
          (setSyncCursor db2 LoopDaily.STATE_KEY
            { last_max_updated_at := none
              last_end_iso := some (LoopDaily.windowEndIso now)
              last_max_updated_at_seen := m })
          db0.nextRunId .succeeded false := rfl

end OpsModel

namespace OpsModel

theorem shopifyRun_cursor_spec (cfg : Config) (now : Int)
    (fetches : List (Option Shopify.Page)) (kill : Option Nat) (db0 : Db) :
    (runStatusOf (Shopify.mainShopify cfg now fetches kill db0) db0.nextRunId ≠
        some .succeeded →
      getSyncCursor (Shopify.mainShopify cfg now fetches kill db0) Shopify.STATE_KEY =
        getSyncCursor db0 Shopify.STATE_KEY ∧
      (Shopify.mainShopify cfg now fetches kill db0).cursorWrites = db0.cursorWrites) ∧
    (runStatusOf (Shopify.mainShopify cfg now fetches kill db0) db0.nextRunId =
        some .succeeded →
      (Shopify.mainShopify cfg now fetches kill db0).cursorWrites =
        db0.cursorWrites + 1) := by
  have hstart := startRun_lookup db0 ("shopify") Shopify.PIPELINE
  have hmeta := Shopify.pageLoop_meta cfg fetches kill
    (startIngestionRun db0 ("shopify") Shopify.PIPELINE).2
    (Shopify.shopifyLastMax (getSyncCursor db0 Shopify.STATE_KEY) now cfg)
  rw [mainShopify_eq]
  cases hres : Shopify.pageLoop cfg fetches kill
      (startIngestionRun db0 ("shopify") Shopify.PIPELINE).2
      (Shopify.shopifyLastMax (getSyncCursor db0 Shopify.STATE_KEY) now cfg) with
  | ok db2 m =>
    rw [hres] at hmeta
    simp only [Shopify.resDb] at hmeta
    obtain ⟨hsync, hruns, hnext, hwrites⟩ := metaOf_fields hmeta
    have hlook : lookupA (setSyncCursor db2 Shopify.STATE_KEY
        { last_max_updated_at := some m, last_end_iso := none
          last_max_updated_at_seen := none }).runs db0.nextRunId =
        some { source := "shopify", pipeline := Shopify.PIPELINE
               status := .started, terminated := false } := by
      show lookupA db2.runs db0.nextRunId = _
      rw [hruns]
      exact hstart
    have hstatus := runStatusOf_finish_self _ db0.nextRunId .succeeded false _ hlook
    constructor
    · intro hne
      exact absurd hstatus hne
    · intro _
      have hfin := (finishIngestionRun_meta (setSyncCursor db2 Shopify.STATE_KEY
        { last_max_updated_at := some m, last_end_iso := none
          last_max_updated_at_seen := none }) db0.nextRunId .succeeded false).2.1
      rw [hfin]
      show db2.cursorWrites + 1 = db0.cursorWrites + 1
      rw [hwrites]
      rfl
  | fail db2 m =>
    rw [hres] at hmeta
    simp only [Shopify.resDb] at hmeta
    obtain ⟨hsync, hruns, hnext, hwrites⟩ := metaOf_fields hmeta
    have hlook : lookupA db2.runs db0.nextRunId =
        some { source := "shopify", pipeline := Shopify.PIPELINE
               status := .started, terminated := false } := by
      rw [hruns]
      exact hstart
    have hstatus := runStatusOf_finish_self db2 db0.nextRunId .failed false _ hlook
    have hfin := finishIngestionRun_meta db2 db0.nextRunId .failed false
    constructor
    · intro _
      constructor
      · simp only [getSyncCursor]
        rw [hfin.1, hsync]
        rfl
      · rw [hfin.2.1, hwrites]
        rfl
    · intro heq
      rw [hstatus] at heq
      exact absurd heq (by decide)
  | killed db2 m =>
    rw [hres] at hmeta
    simp only [Shopify.resDb] at hmeta
    obtain ⟨hsync, hruns, hnext, hwrites⟩ := metaOf_fields hmeta
    have hstatus : runStatusOf db2 db0.nextRunId = some .started := by
      unfold runStatusOf
      rw [hruns, hstart]
      rfl
    constructor
    · intro _
      constructor
      · simp only [getSyncCursor]
        rw [hsync]
        rfl
      · rw [hwrites]
        rfl
    · intro heq
      rw [hstatus] at heq
      exact absurd heq (by decide)

theorem loopRun_cursor_spec (cfg : Config) (now : Int)
    (fetches : List (Option LoopDaily.LoopPage)) (db0 : Db) :
    (runStatusOf (LoopDaily.mainLoopDaily cfg now fetches db0) db0.nextRunId ≠
        some .succeeded →
      getSyncCursor (LoopDaily.mainLoopDaily cfg now fetches db0)
          LoopDaily.STATE_KEY =
        getSyncCursor db0 LoopDaily.STATE_KEY ∧
      (LoopDaily.mainLoopDaily cfg now fetches db0).cursorWrites =
        db0.cursorWrites) ∧
    (runStatusOf (LoopDaily.mainLoopDaily cfg now fetches db0) db0.nextRunId =
        some .succeeded →
      (LoopDaily.mainLoopDaily cfg now fetches db0).cursorWrites =
        db0.cursorWrites + 1) := by
  have hstart := startRun_lookup db0 ("loop") LoopDaily.PIPELINE
  have hmeta := LoopDaily.pageLoopDaily_meta fetches
    (startIngestionRun db0 ("loop") LoopDaily.PIPELINE).2 none
  rw [mainLoopDaily_eq]
  cases hres : LoopDaily.pageLoop fetches
      (startIngestionRun db0 ("loop") LoopDaily.PIPELINE).2 none with
  | ok db2 m =>
    rw [hres] at hmeta
    simp only [Shopify.resDb] at hmeta
    obtain ⟨hsync, hruns, hnext, hwrites⟩ := metaOf_fields hmeta
    have hlook : lookupA (setSyncCursor db2 LoopDaily.STATE_KEY
        { last_max_updated_at := none
          last_end_iso := some (LoopDaily.windowEndIso now)
          last_max_updated_at_seen := m }).runs db0.nextRunId =
        some { source := "loop", pipeline := LoopDaily.PIPELINE
               status := .started, terminated := false } := by
      show lookupA db2.runs db0.nextRunId = _
      rw [hruns]
      exact hstart
    have hstatus := runStatusOf_finish_self _ db0.nextRunId .succeeded false _ hlook
    constructor
    · intro hne
      exact absurd hstatus hne
    · intro _
      have hfin := (finishIngestionRun_meta (setSyncCursor db2 LoopDaily.STATE_KEY
        { last_max_updated_at := none
          last_end_iso := some (LoopDaily.windowEndIso now)
          last_max_updated_at_seen := m }) db0.nextRunId .succeeded false).2.1
      rw [hfin]
      show db2.cursorWrites + 1 = db0.cursorWrites + 1
      rw [hwrites]
      rfl
  | fail db2 m =>
    rw [hres] at hmeta
    simp only [Shopify.resDb] at hmeta
    obtain ⟨hsync, hruns, hnext, hwrites⟩ := metaOf_fields hmeta
    have hlook : lookupA db2.runs db0.nextRunId =
        some { source := "loop", pipeline := LoopDaily.PIPELINE
               status := .started, terminated := false } := by
      rw [hruns]
      exact hstart
    have hstatus := runStatusOf_finish_self db2 db0.nextRunId .failed false _ hlook
    have hfin := finishIngestionRun_meta db2 db0.nextRunId .failed false
    constructor
    · intro _
      constructor
      · simp only [getSyncCursor]
        rw [hfin.1, hsync]
        rfl
      · rw [hfin.2.1, hwrites]
        rfl
    · intro heq
      rw [hstatus] at heq
      exact absurd heq (by decide)
  | killed db2 m =>
    rw [hres] at hmeta
    simp only [Shopify.resDb] at hmeta
    obtain ⟨hsync, hruns, hnext, hwrites⟩ := metaOf_fields hmeta
    have hstatus : runStatusOf db2 db0.nextRunId = some .started := by
      unfold runStatusOf
      rw [hruns, hstart]
      rfl
    constructor
    · intro _
      constructor
      · simp only [getSyncCursor]
        rw [hsync]
        rfl
      · rw [hwrites]
        rfl
    · intro heq
      rw [hstatus] at heq
      exact absurd heq (by decide)

/-- C1: watermark safety.  For every run of either daily pipeline and every
failure anywhere in the fetch-and-apply loop (HTTP error, constraint
violation, any exception, even a process kill) the persisted ops.sync_state
value for the pipeline's key after the run equals its value before the run
and no cursor write is executed; a cursor write happens exactly once, on a
run whose ledger row ends `succeeded`, i.e. only after the loop completed
for the whole planned window. -/
theorem watermark_safety (cfg : Config) (now : Int)
    (fetches : List (Option Shopify.Page))
    (lfetches : List (Option LoopDaily.LoopPage)) (kill : Option Nat) (db0 : Db) :
    (runStatusOf (Shopify.mainShopify cfg now fetches kill db0) db0.nextRunId ≠
        some .succeeded →
      getSyncCursor (Shopify.mainShopify cfg now fetches kill db0) Shopify.STATE_KEY =
        getSyncCursor db0 Shopify.STATE_KEY ∧
      (Shopify.mainShopify cfg now fetches kill db0).cursorWrites = db0.cursorWrites) ∧
    (runStatusOf (Shopify.mainShopify cfg now fetches kill db0) db0.nextRunId =
        some .succeeded →
      (Shopify.mainShopify cfg now fetches kill db0).cursorWrites =
        db0.cursorWrites + 1) ∧
    (runStatusOf (LoopDaily.mainLoopDaily cfg now lfetches db0) db0.nextRunId ≠
        some .succeeded →
      getSyncCursor (LoopDaily.mainLoopDaily cfg now lfetches db0)
          LoopDaily.STATE_KEY =
        getSyncCursor db0 LoopDaily.STATE_KEY ∧
      (LoopDaily.mainLoopDaily cfg now lfetches db0).cursorWrites =
        db0.cursorWrites) ∧
    (runStatusOf (LoopDaily.mainLoopDaily cfg now lfetches db0) db0.nextRunId =
        some .succeeded →
      (LoopDaily.mainLoopDaily cfg now lfetches db0).cursorWrites =
        db0.cursorWrites + 1) :=
  ⟨(shopifyRun_cursor_spec cfg now fetches kill db0).1,
   (shopifyRun_cursor_spec cfg now fetches kill db0).2,
   (loopRun_cursor_spec cfg now lfetches db0).1,
   (loopRun_cursor_spec cfg now lfetches db0).2⟩

/-- Witness for C1: a run whose first fetch fails leaves the cursor exactly
as it was and executes no cursor write. -/
theorem watermark_safety_witness :
    runStatusOf (Shopify.mainShopify ⟨7, 48, true⟩ 0 [none] none emptyDb) 0 ≠
      some .succeeded ∧
    getSyncCursor (Shopify.mainShopify ⟨7, 48, true⟩ 0 [none] none emptyDb)
        Shopify.STATE_KEY =
      getSyncCursor emptyDb Shopify.STATE_KEY ∧
    (Shopify.mainShopify ⟨7, 48, true⟩ 0 [none] none emptyDb).cursorWrites =
      emptyDb.cursorWrites :=
  ⟨by decide,
   ((watermark_safety ⟨7, 48, true⟩ 0 [none] [] none emptyDb).1 (by decide)).1,
   ((watermark_safety ⟨7, 48, true⟩ 0 [none] [] none emptyDb).1 (by decide)).2⟩

end OpsModel

namespace OpsModel

theorem runEvents_fault (id : Nat) :
    ∀ (pre rest : List Ingestion.HEvent) (db : Db),
    (∀ e ∈ pre, e = Ingestion.HEvent.work) →
    Ingestion.runEvents id (pre ++ .fault :: rest) db =
      finishIngestionRun db id .failed true := by
  intro pre
  induction pre with
  | nil =>
    intro rest db _
    rfl
  | cons e pre' ih =>
    intro rest db hpre
    have he : e = Ingestion.HEvent.work := hpre e (List.mem_cons_self _ _)
    subst he
    exact ih rest db (fun x hx => hpre x (List.mem_cons_of_mem _ hx))

/-- C6 counterexample: shopify_sync_orders_daily installs no signal or
uncaught-exception handlers, so a process-level fault arriving right after
the ledger row is created (kill before the first fetch) exits the process
with the row still `started` and no `terminated` metadata — not the claimed
failed/terminated finalization. -/
theorem process_fault_ledger_counterexample :
    runStatusOf (Shopify.mainShopify ⟨7, 48, true⟩ 0
        [some { orders := [], next := false }] (some 0) emptyDb) 0 =
      some .started ∧
    runTerminatedOf (Shopify.mainShopify ⟨7, 48, true⟩ 0
        [some { orders := [], next := false }] (some 0) emptyDb) 0 =
      some false ∧
    some RunStatus.started ≠ some RunStatus.failed := by
  refine ⟨by decide, by decide, by decide⟩

/-- C6 amended: only pipelines that run under withIngestionRun convert
process-level faults into a failed ledger row with `terminated: true`
before exit; shopify_sync_orders_daily (like the orders backfill and the
loop subscriptions daily script) installs no signal/uncaught handlers, so a
process fault during its run leaves the run's ledger row in status
`started` forever. -/
theorem process_fault_ledger_amended :
    (∀ (src pip : String) (pre rest : List Ingestion.HEvent) (db0 : Db),
      (∀ e ∈ pre, e = Ingestion.HEvent.work) →
      runStatusOf (Ingestion.withIngestionRun src pip (pre ++ .fault :: rest) db0)
          db0.nextRunId = some .failed ∧
      runTerminatedOf (Ingestion.withIngestionRun src pip (pre ++ .fault :: rest) db0)
          db0.nextRunId = some true) ∧
    (∀ (cfg : Config) (now : Int) (fetches : List (Option Shopify.Page)) (k : Nat)
        (db0 db2 : Db) (m : Int),
      Shopify.pageLoop cfg fetches (some k)
          (startIngestionRun db0 ("shopify") Shopify.PIPELINE).2
          (Shopify.shopifyLastMax (getSyncCursor db0 Shopify.STATE_KEY) now cfg) =
        .killed db2 m →
      runStatusOf (Shopify.mainShopify cfg now fetches (some k) db0) db0.nextRunId =
        some .started) := by
  constructor
  · intro src pip pre rest db0 hpre
    have hrw : Ingestion.withIngestionRun src pip (pre ++ .fault :: rest) db0 =
        finishIngestionRun (startIngestionRun db0 src pip).2 db0.nextRunId
          .failed true := by
      show Ingestion.runEvents db0.nextRunId (pre ++ .fault :: rest)
          (startIngestionRun db0 src pip).2 = _
      exact runEvents_fault db0.nextRunId pre rest (startIngestionRun db0 src pip).2 hpre
    rw [hrw]
    have hstart := startRun_lookup db0 src pip
    refine ⟨runStatusOf_finish_self _ _ .failed true _ hstart, ?_⟩
    rw [runTerminatedOf_finish_self _ _ .failed true _ hstart]
    simp
  · intro cfg now fetches k db0 db2 m hres
    have hmeta := Shopify.pageLoop_meta cfg fetches (some k)
      (startIngestionRun db0 ("shopify") Shopify.PIPELINE).2
      (Shopify.shopifyLastMax (getSyncCursor db0 Shopify.STATE_KEY) now cfg)
    rw [hres] at hmeta
    simp only [Shopify.resDb] at hmeta
    obtain ⟨hsync, hruns, hnext, hwrites⟩ := metaOf_fields hmeta
    rw [mainShopify_eq, hres]
    show runStatusOf db2 db0.nextRunId = some .started
    unfold runStatusOf
    rw [hruns, startRun_lookup db0 ("shopify") Shopify.PIPELINE]
    rfl

/-- Witness for C6 amended: a fault after one unit of handler work under
withIngestionRun yields a failed, terminated ledger row. -/
theorem process_fault_ledger_amended_witness :
    runStatusOf (Ingestion.withIngestionRun ("loop") ("loop_orders_backfill")
        ([.work] ++ .fault :: []) emptyDb) 0 = some .failed ∧
    runTerminatedOf (Ingestion.withIngestionRun ("loop") ("loop_orders_backfill")
        ([.work] ++ .fault :: []) emptyDb) 0 = some true :=
  process_fault_ledger_amended.1 ("loop") ("loop_orders_backfill") [.work] []
    emptyDb (by intro e he; simpa using he)

/-- A committed-but-then-aborted page for C2: the first order is valid, the
second violates the NOT NULL constraint on processed_at. -/
def orderOkSample : OrderRec :=
  { id := 1, order_number := none, customer := none, processed_at := some 100
    created_at := some 50, updated_at := some 100, currency := some ("USD")
    financial_status := none, fulfillment_status := none, cancelled_at := none
    cancel_reason := none, tags := [], test := false, line_items := none
    refunds := none }

/-- The failing second record of the page. -/
def orderBadSample : OrderRec :=
  { id := 2, order_number := none, customer := none, processed_at := none
    created_at := some 60, updated_at := some 110, currency := some ("USD")
    financial_status := none, fulfillment_status := none, cancelled_at := none
    cancel_reason := none, tags := [], test := false, line_items := none
    refunds := none }

/-- The daily orders run over one page holding those two records. -/
def midBatchFailureRun : Db :=
  Shopify.mainShopify ⟨7, 48, true⟩ 0
    [some { orders := [orderOkSample, orderBadSample], next := false }] none emptyDb

/-- C2 counterexample: one page of two records whose second fails the NOT
NULL constraint.  The ledger shows failed and the cursor is unchanged, but
the first record of the batch **remains applied** — the shopify daily
pipeline opens one transaction per order, not per page, refuting "no record
of that batch remains applied". -/
theorem batch_txn_counterexample :
    runStatusOf midBatchFailureRun 0 = some .failed ∧
    lookupA midBatchFailureRun.orders 1 = some orderOkSample ∧
    lookupA midBatchFailureRun.orders 2 = none ∧
    getSyncCursor midBatchFailureRun Shopify.STATE_KEY =
      getSyncCursor emptyDb Shopify.STATE_KEY := by
  refine ⟨by decide, by decide, by decide, by decide⟩

/-- C2 amended: transaction granularity.  In the loop subscriptions daily
pipeline all writes of one fetched page are one atomic transaction — a
failure anywhere in the page leaves the storage exactly as before the page.
In the shopify orders daily pipeline the transaction wraps a single order:
a failing order's own writes are fully rolled back, but earlier orders of
the same page stay committed (see the two-record scenario), while the
ledger row still ends `failed` and the cursor is unchanged. -/
theorem txn_granularity_amended :
    (∀ (db : Db) (m : Option Int) (subs : List SubRec) (e : RunErr),
      (LoopDaily.applyPageTxn db m subs).2.2 = some e →
      (LoopDaily.applyPageTxn db m subs).1 = db) ∧
    (∀ (cfg : Config) (db : Db) (m : Int) (o : OrderRec) (e : RunErr),
      (Shopify.applyOrderTxn cfg db m o).2.2 = some e →
      (Shopify.applyOrderTxn cfg db m o).1 = db) ∧
    (runStatusOf midBatchFailureRun 0 = some .failed ∧
      lookupA midBatchFailureRun.orders 1 = some orderOkSample ∧
      lookupA midBatchFailureRun.orders 2 = none ∧
      getSyncCursor midBatchFailureRun Shopify.STATE_KEY =
        getSyncCursor emptyDb Shopify.STATE_KEY) := by
  refine ⟨?_, ?_, by decide, by decide, by decide, by decide⟩
  · intro db m subs e
    unfold LoopDaily.applyPageTxn
    rcases happ : LoopDaily.applySubs db m subs with ⟨exc, m1⟩
    cases exc with
    | ok db1 =>
      intro h
      exact absurd h (by simp)
    | error e2 =>
      intro _
      rfl
  · intro cfg db m o e
    unfold Shopify.applyOrderTxn
    split
    · intro _
      rfl
    · split
      · intro _
        rfl
      · split
        · intro _
          rfl
        · intro h
          exact absurd h (by simp)

/-- Witness for C2 amended: a one-record page whose record has a null
status rolls back to the pre-page state in the loop pipeline. -/
theorem txn_granularity_amended_witness :
    (LoopDaily.applyPageTxn emptyDb none
        [{ id := 9, updatedAt := none, status := none, lines := none
           payload := "" }]).2.2 = some .notNullViolation ∧
    (LoopDaily.applyPageTxn emptyDb none
        [{ id := 9, updatedAt := none, status := none, lines := none
           payload := "" }]).1 = emptyDb :=
  ⟨by decide,
   txn_granularity_amended.1 emptyDb none
     [{ id := 9, updatedAt := none, status := none, lines := none
        payload := "" }] .notNullViolation (by decide)⟩

end OpsModel

namespace OpsModel

namespace Shopify

/-- Specification-side recomputation of the orders the page loop consumes
from a fetch script before its normal exit (empty page or missing next
token end the sequence). -/
def seenOrders : List (Option Page) → List OrderRec
  | [] => []
  | none :: _ => []
  | some pg :: rest =>
    if pg.orders.isEmpty then []
    else if pg.next then pg.orders ++ seenOrders rest else pg.orders

theorem applyOrderTxn_max {cfg : Config} {db : Db} {m : Int} {o : OrderRec}
    {db1 : Db} {m1 : Int}
    (h : applyOrderTxn cfg db m o = (db1, m1, none)) : m1 = bumpMax m o := by
  unfold applyOrderTxn at h
  split at h
  · simp only [Prod.mk.injEq] at h
    exact absurd h.2.2 (by simp)
  · split at h
    · simp only [Prod.mk.injEq] at h
      exact h.2.1.symm
    · split at h
      · simp only [Prod.mk.injEq] at h
        exact h.2.1.symm
      · simp only [Prod.mk.injEq] at h
        exact h.2.1.symm

theorem applyBatch_max (cfg : Config) :
    ∀ (os : List OrderRec) (db : Db) (m : Int) (db1 : Db) (m1 : Int),
    applyBatch cfg db m os = (db1, m1, none) → m1 = os.foldl bumpMax m := by
  intro os
  induction os with
  | nil =>
    intro db m db1 m1 h
    simp only [applyBatch, Prod.mk.injEq] at h
    exact h.2.1.symm
  | cons o rest ih =>
    intro db m db1 m1 h
    unfold applyBatch at h
    rcases htxn : applyOrderTxn cfg db m o with ⟨dbx, mx, e⟩
    rw [htxn] at h
    cases e with
    | some err =>
      simp only [Prod.mk.injEq] at h
      exact absurd h.2.2 (by simp)
    | none =>
      simp only at h
      have hmx : mx = bumpMax m o := applyOrderTxn_max htxn
      rw [List.foldl_cons, ← hmx]
      exact ih dbx mx db1 m1 h

theorem bumpMax_ge (m : Int) (o : OrderRec) : m ≤ bumpMax m o := by
  unfold bumpMax
  cases h : effTs o with
  | none => exact le_refl m
  | some u =>
    show m ≤ if u > m then u else m
    by_cases hu : u > m
    · rw [if_pos hu]
      exact le_of_lt hu
    · rw [if_neg hu]

theorem foldl_bumpMax_ge : ∀ (os : List OrderRec) (m : Int),
    m ≤ os.foldl bumpMax m := by
  intro os
  induction os with
  | nil => intro m; exact le_refl m
  | cons o rest ih =>
    intro m
    exact le_trans (bumpMax_ge m o) (ih (bumpMax m o))

theorem bumpMax_eq_max (m : Int) (o : OrderRec) :
    bumpMax m o = max m ((effTs o).getD m) := by
  unfold bumpMax
  cases h : effTs o with
  | none => simp
  | some u =>
    show (if u > m then u else m) = max m ((some u).getD m)
    simp only [Option.getD_some]
    rcases le_or_lt u m with hle | hlt
    · rw [if_neg (not_lt.mpr hle), max_eq_left hle]
    · rw [if_pos hlt, max_eq_right (le_of_lt hlt)]

theorem pageLoop_nil_eq (cfg : Config) (db : Db) (m : Int) :
    pageLoop cfg [] none db m = .fail db m := rfl

theorem pageLoop_cons_none_eq (cfg : Config) (rest : List (Option Page))
    (db : Db) (m : Int) : pageLoop cfg (none :: rest) none db m = .fail db m := rfl

theorem pageLoop_cons_some_eq (cfg : Config) (pg : Page)
    (rest : List (Option Page)) (db : Db) (m : Int) :
    pageLoop cfg (some pg :: rest) none db m =
      (if pg.orders.isEmpty then LoopRes.ok db m
       else
        match applyBatch cfg db m pg.orders with
        | (db1, m1, some _) => LoopRes.fail db1 m1
        | (db1, m1, none) =>
          if pg.next then pageLoop cfg rest none db1 m1
          else LoopRes.ok db1 m1) := rfl

theorem pageLoop_ok_max (cfg : Config) :
    ∀ (fetches : List (Option Page)) (db : Db) (m : Int) (db1 : Db) (m1 : Int),
    pageLoop cfg fetches none db m = .ok db1 m1 →
    m1 = (seenOrders fetches).foldl bumpMax m := by
  intro fetches
  induction fetches with
  | nil =>
    intro db m db1 m1 h
    rw [pageLoop_nil_eq] at h
    exact absurd h (by simp)
  | cons f rest ih =>
    intro db m db1 m1 h
    cases f with
    | none =>
      rw [pageLoop_cons_none_eq] at h
      exact absurd h (by simp)
    | some pg =>
      rw [pageLoop_cons_some_eq] at h
      by_cases hemp : pg.orders.isEmpty
      · rw [if_pos hemp] at h
        injection h with h1 h2
        subst h2
        simp [seenOrders, hemp]
      · rw [if_neg hemp] at h
        rcases hab : applyBatch cfg db m pg.orders with ⟨dbx, mx, e⟩
        rw [hab] at h
        cases e with
        | some err => exact absurd h (by simp)
        | none =>
          simp only at h
          have hmx : mx = pg.orders.foldl bumpMax m := applyBatch_max cfg _ _ _ _ _ hab
          by_cases hnext : pg.next = true
          · rw [if_pos hnext] at h
            have := ih dbx mx db1 m1 (by simpa using h)
            rw [this, hmx]
            simp [seenOrders, hemp, hnext, List.foldl_append]
          · rw [if_neg hnext] at h
            injection h with h1 h2
            subst h2
            rw [hmx]
            have hnext2 : pg.next = false := by
              cases hn : pg.next
              · rfl
              · exact absurd hn hnext
            simp [seenOrders, hemp, hnext2]

end Shopify

/-- The prior state for C10: a persisted cursor of 1000 for the orders
pipeline. -/
def priorCursorDb : Db :=
  { emptyDb with
    sync_state := [(Shopify.STATE_KEY,
      { last_max_updated_at := some 1000, last_end_iso := none
        last_max_updated_at_seen := none })] }

/-- An order that carries no updated_at but a processed_at of 5000. -/
def orderNoUpdatedAt : OrderRec :=
  { id := 1, order_number := none, customer := none, processed_at := some 5000
    created_at := some 2000, updated_at := none, currency := some ("USD")
    financial_status := none, fulfillment_status := none, cancelled_at := none
    cancel_reason := none, tags := [], test := false, line_items := none
    refunds := none }

/-- The successful one-page run over that order. -/
def fallbackCursorRun : Db :=
  Shopify.mainShopify ⟨7, 48, true⟩ 0
    [some { orders := [orderNoUpdatedAt], next := false }] none priorCursorDb

/-- C10 counterexample: a successful run over one order that has no
updated_at persists 5000 (its processed_at, via the fallback
`updated_at || processed_at || created_at`), while the maximum of the prior
cursor (1000) and all order updated_at timestamps seen (none) is 1000 —
the claimed equality fails. -/
theorem cursor_monotone_counterexample :
    runStatusOf fallbackCursorRun 0 = some .succeeded ∧
    (getSyncCursor fallbackCursorRun Shopify.STATE_KEY).bind
        (fun c => c.last_max_updated_at) = some 5000 ∧
    List.foldl (fun a (u : Int) => max a u) 1000
        ([orderNoUpdatedAt].filterMap (fun o => o.updated_at)) = 1000 ∧
    (5000 : Int) ≠ 1000 := by
  refine ⟨by decide, by decide, by decide, by decide⟩

/-- C10 amended: on every successful run the persisted cursor equals the
running maximum of the prior cursor value (or the lookback default) and the
*effective* timestamps of the orders seen, where the effective timestamp is
updated_at with fallback to processed_at and then created_at; each step is
a two-argument max, so the cursor never decreases across successful runs. -/
theorem cursor_monotone_amended (cfg : Config) (now : Int)
    (fetches : List (Option Shopify.Page)) (db0 db2 : Db) (m : Int)
    (hres : Shopify.pageLoop cfg fetches none
        (startIngestionRun db0 ("shopify") Shopify.PIPELINE).2
        (Shopify.shopifyLastMax (getSyncCursor db0 Shopify.STATE_KEY) now cfg) =
      .ok db2 m) :
    (getSyncCursor (Shopify.mainShopify cfg now fetches none db0)
        Shopify.STATE_KEY).bind (fun c => c.last_max_updated_at) = some m ∧
    m = (Shopify.seenOrders fetches).foldl Shopify.bumpMax
        (Shopify.shopifyLastMax (getSyncCursor db0 Shopify.STATE_KEY) now cfg) ∧
    Shopify.shopifyLastMax (getSyncCursor db0 Shopify.STATE_KEY) now cfg ≤ m ∧
    (∀ (mm : Int) (o : OrderRec),
      Shopify.bumpMax mm o = max mm ((Shopify.effTs o).getD mm)) := by
  have hfold := Shopify.pageLoop_ok_max cfg fetches _ _ db2 m hres
  refine ⟨?_, hfold, ?_, Shopify.bumpMax_eq_max⟩
  · rw [mainShopify_eq, hres]
    have hfin := (finishIngestionRun_meta (setSyncCursor db2 Shopify.STATE_KEY
      { last_max_updated_at := some m, last_end_iso := none
        last_max_updated_at_seen := none }) db0.nextRunId .succeeded false).1
    simp only [getSyncCursor]
    rw [hfin]
    rw [show (setSyncCursor db2 Shopify.STATE_KEY
        { last_max_updated_at := some m, last_end_iso := none
          last_max_updated_at_seen := none }).sync_state =
      applyOp db2.sync_state (.ups Shopify.STATE_KEY
        { last_max_updated_at := some m, last_end_iso := none
          last_max_updated_at_seen := none }) from rfl]
    rw [lookupA_applyOp_ups_self]
    rfl
  · rw [hfold]
    exact Shopify.foldl_bumpMax_ge _ _

/-- Witness for C10 amended: an immediately-empty page keeps the prior
cursor value 1000. -/
theorem cursor_monotone_amended_witness :
    (getSyncCursor (Shopify.mainShopify ⟨7, 48, true⟩ 0
        [some { orders := [], next := false }] none priorCursorDb)
      Shopify.STATE_KEY).bind (fun c => c.last_max_updated_at) = some 1000 ∧
    Shopify.shopifyLastMax (getSyncCursor priorCursorDb Shopify.STATE_KEY) 0
      ⟨7, 48, true⟩ ≤ 1000 :=
  ⟨(cursor_monotone_amended ⟨7, 48, true⟩ 0 [some { orders := [], next := false }]
      priorCursorDb
      (startIngestionRun priorCursorDb ("shopify") Shopify.PIPELINE).2 1000
      (by decide)).1,
   (cursor_monotone_amended ⟨7, 48, true⟩ 0 [some { orders := [], next := false }]
      priorCursorDb
      (startIngestionRun priorCursorDb ("shopify") Shopify.PIPELINE).2 1000
      (by decide)).2.2.1⟩

end OpsModel

namespace OpsModel

namespace Shopify

/-- The per-table write sequences one fetched batch performs, plus the rows
appended outside any unique index (refund line items with a null line-item
id). -/
structure BatchOps where
  ordOps : List (WOp Int OrderRec)
  skuOps : List (WOp String SkuRow)
  liOps : List (WOp (Int × Nat) LineItemRow)
  refOps : List (WOp Nat RefundRow)
  rliOps : List (WOp (Nat × Nat) RefundLineRow)
  unkeyedRows : List RefundLineRow

/-- No writes. -/
def BatchOps.nil : BatchOps := ⟨[], [], [], [], [], []⟩

/-- Concatenation of write sequences. -/
def BatchOps.app (a b : BatchOps) : BatchOps :=
  ⟨a.ordOps ++ b.ordOps, a.skuOps ++ b.skuOps, a.liOps ++ b.liOps,
   a.refOps ++ b.refOps, a.rliOps ++ b.rliOps, a.unkeyedRows ++ b.unkeyedRows⟩

/-- Execute a batch's writes table by table (writes to distinct tables
commute, and each table receives its writes in source order). -/
def runBatchOps (db : Db) (bo : BatchOps) : Db :=
  { db with
    orders := applyOps db.orders bo.ordOps
    dim_sku := applyOps db.dim_sku bo.skuOps
    line_items := applyOps db.line_items bo.liOps
    refunds := applyOps db.refunds bo.refOps
    refund_lines := applyOps db.refund_lines bo.rliOps
    refund_lines_unkeyed := db.refund_lines_unkeyed ++ bo.unkeyedRows }

theorem runBatchOps_nil (db : Db) : runBatchOps db BatchOps.nil = db := by
  simp [runBatchOps, BatchOps.nil, applyOps]

theorem runBatchOps_app (db : Db) (a b : BatchOps) :
    runBatchOps db (a.app b) = runBatchOps (runBatchOps db a) b := by
  simp [runBatchOps, BatchOps.app, applyOps_append, List.append_assoc]

/-- Replaying a batch whose every write is keyed (no unkeyed appends) is a
no-op on the state. -/
theorem runBatchOps_idem (db : Db) (bo : BatchOps) (hunk : bo.unkeyedRows = []) :
    runBatchOps (runBatchOps db bo) bo = runBatchOps db bo := by
  simp [runBatchOps, applyOps_idem, hunk]

/-- Writes of one order-line upsert. -/
def opsOfLineItem (orderId : Int) (tags : List String) (li : LineItemRec) :
    BatchOps :=
  let sku := strTrim (li.sku.getD (""))
  if sku = "" then .nil
  else
    ⟨[], [.ifAbsent sku (dailyStubRow (liMeta li))],
     [.ups (orderId, li.id) (mkLineItemRow tags sku li)], [], [], []⟩

/-- Writes of an order's line-item loop. -/
def opsOfLineItems (orderId : Int) (tags : List String) :
    List LineItemRec → BatchOps
  | [] => .nil
  | li :: rest =>
    (opsOfLineItem orderId tags li).app (opsOfLineItems orderId tags rest)

/-- Writes of one refund line item that commits.  The keyed path never
commits (its ON CONFLICT clause cannot be matched to the partial index), so
a committed refund line is always an append outside any unique index. -/
def opsOfRli (refundId : Nat) (orderId : Int) (x : RefundLineItemRec) : BatchOps :=
  let skuPart : List (WOp String SkuRow) :=
    match rliSku x with
    | some s => [.ifAbsent s (dailyStubRow (rliMeta x))]
    | none => []
  ⟨[], skuPart, [], [], [], [mkRefundLineRow refundId orderId x]⟩

/-- Writes of a refund's line-item loop. -/
def opsOfRlis (refundId : Nat) (orderId : Int) :
    List RefundLineItemRec → BatchOps
  | [] => .nil
  | x :: rest => (opsOfRli refundId orderId x).app (opsOfRlis refundId orderId rest)

/-- Writes of one refund (header then lines). -/
def opsOfRefund (orderId : Int) (r : RefundRec) : BatchOps :=
  (⟨[], [], [], [.ups r.id { order_id := orderId, r := r }], [], []⟩ :
    BatchOps).app (opsOfRlis r.id orderId (r.refund_line_items.getD []))

/-- Writes of an order's refund loop. -/
def opsOfRefunds (orderId : Int) : List RefundRec → BatchOps
  | [] => .nil
  | r :: rest => (opsOfRefund orderId r).app (opsOfRefunds orderId rest)

/-- Writes of one order's transaction. -/
def opsOfOrder (o : OrderRec) : BatchOps :=
  (⟨[.ups o.id o], [], [], [], [], []⟩ : BatchOps).app
    ((opsOfLineItems o.id o.tags (o.line_items.getD [])).app
      (opsOfRefunds o.id (o.refunds.getD [])))

/-- Writes of a whole batch. -/
def opsOfBatch : List OrderRec → BatchOps
  | [] => .nil
  | o :: rest => (opsOfOrder o).app (opsOfBatch rest)

end Shopify

end OpsModel

namespace OpsModel

namespace Shopify

theorem ensureSkuExists_effect {cfg : Config} {db : Db} {sku : String}
    {m : SkuMeta} {r1 : Db} {fl : Bool}
    (h : ensureSkuExists cfg db sku m = .ok (r1, fl)) :
    r1 = { db with dim_sku := applyOp db.dim_sku (.ifAbsent sku (dailyStubRow m)) } := by
  unfold ensureSkuExists at h
  cases hl : lookupA db.dim_sku sku with
  | some row =>
    rw [hl] at h
    injection h with h
    rw [Prod.mk.injEq] at h
    rw [← h.1]
    have hmem : sku ∈ keysA db.dim_sku :=
      (lookupA_isSome_iff_mem db.dim_sku sku).mp (by rw [hl]; rfl)
    simp [applyOp, hmem]
  | none =>
    rw [hl] at h
    by_cases hins : cfg.insertStubSkus = false
    · rw [if_pos hins] at h
      exact Except.noConfusion h
    · rw [if_neg hins] at h
      injection h with h
      rw [Prod.mk.injEq] at h
      rw [← h.1]

theorem upsertLineItem_effect {cfg : Config} {db db1 : Db} {oid : Int}
    {tags : List String} {li : LineItemRec}
    (h : upsertLineItem cfg db oid tags li = .ok db1) :
    db1 = runBatchOps db (opsOfLineItem oid tags li) := by
  simp only [upsertLineItem] at h
  simp only [opsOfLineItem]
  split at h
  · rename_i hsku
    rw [if_pos hsku]
    injection h with h
    subst h
    exact (runBatchOps_nil db).symm
  · rename_i hsku
    rw [if_neg hsku]
    split at h
    · exact Except.noConfusion h
    · rename_i p heq
      split at h
      · exact Except.noConfusion h
      · injection h with h
        subst h
        rw [ensureSkuExists_effect heq]
        simp [runBatchOps, applyOps]

theorem applyLineItems_effect {cfg : Config} {oid : Int} {tags : List String} :
    ∀ {lis : List LineItemRec} {db db1 : Db},
    applyLineItems cfg oid tags db lis = .ok db1 →
    db1 = runBatchOps db (opsOfLineItems oid tags lis) := by
  intro lis
  induction lis with
  | nil =>
    intro db db1 h
    injection h with h
    subst h
    exact (runBatchOps_nil db).symm
  | cons li rest ih =>
    intro db db1 h
    unfold applyLineItems at h
    split at h
    · exact Except.noConfusion h
    · rename_i dbm heq
      rw [ih h, upsertLineItem_effect heq]
      exact (runBatchOps_app db _ _).symm

end Shopify

end OpsModel

namespace OpsModel

namespace Shopify

theorem applyRefundLineItem_effect {cfg : Config} {db db1 : Db} {rid : Nat}
    {oid : Int} {x : RefundLineItemRec}
    (h : applyRefundLineItem cfg db rid oid x = .ok db1) :
    db1 = runBatchOps db (opsOfRli rid oid x) := by
  simp only [applyRefundLineItem] at h
  simp only [opsOfRli]
  cases hs : rliSku x with
  | some s =>
    simp only [hs] at h ⊢
    split at h
    · exact Except.noConfusion h
    · rename_i dbv p heq
      have hdbs : p = { db with
          dim_sku := applyOp db.dim_sku (.ifAbsent s (dailyStubRow (rliMeta x))) } := by
        split at heq
        · exact Except.noConfusion heq
        · rename_i r1 fl heq2
          injection heq with heq
          rw [← heq]
          exact ensureSkuExists_effect heq2
      split at h
      · exact Except.noConfusion h
      · split at h
        · exact Except.noConfusion h
        · injection h with h
          subst h
          rw [hdbs]
          simp [runBatchOps, applyOps]
  | none =>
    simp only [hs] at h ⊢
    split at h
    · exact Except.noConfusion h
    · split at h
      · exact Except.noConfusion h
      · injection h with h
        subst h
        simp [runBatchOps, applyOps]

theorem applyRefundLineItems_effect {cfg : Config} {rid : Nat} {oid : Int} :
    ∀ {xs : List RefundLineItemRec} {db db1 : Db},
    applyRefundLineItems cfg rid oid db xs = .ok db1 →
    db1 = runBatchOps db (opsOfRlis rid oid xs) := by
  intro xs
  induction xs with
  | nil =>
    intro db db1 h
    injection h with h
    subst h
    exact (runBatchOps_nil db).symm
  | cons r rest ih =>
    intro db db1 h
    unfold applyRefundLineItems at h
    split at h
    · exact Except.noConfusion h
    · rename_i dbm heq
      rw [ih h, applyRefundLineItem_effect heq]
      exact (runBatchOps_app db _ _).symm

theorem upsertRefundHeader_effect {db db1 : Db} {oid : Int} {r : RefundRec}
    (h : upsertRefundHeader db oid r = .ok db1) :
    db1 = runBatchOps db
      (⟨[], [], [], [.ups r.id { order_id := oid, r := r }], [], []⟩ : BatchOps) := by
  unfold upsertRefundHeader at h
  cases hc : r.created_at with
  | none =>
    rw [hc] at h
    exact Except.noConfusion h
  | some t =>
    rw [hc] at h
    injection h with h
    subst h
    simp [runBatchOps, applyOps]

theorem applyRefund_effect {cfg : Config} {db db1 : Db} {oid : Int} {r : RefundRec}
    (h : applyRefund cfg db oid r = .ok db1) :
    db1 = runBatchOps db (opsOfRefund oid r) := by
  unfold applyRefund at h
  split at h
  · exact Except.noConfusion h
  · rename_i dbm heq
    rw [applyRefundLineItems_effect h, upsertRefundHeader_effect heq]
    exact (runBatchOps_app db _ _).symm

theorem upsertRefunds_effect {cfg : Config} {oid : Int} :
    ∀ {rs : List RefundRec} {db db1 : Db},
    upsertRefunds cfg oid db rs = .ok db1 →
    db1 = runBatchOps db (opsOfRefunds oid rs) := by
  intro rs
  induction rs with
  | nil =>
    intro db db1 h
    injection h with h
    subst h
    exact (runBatchOps_nil db).symm
  | cons r rest ih =>
    intro db db1 h
    unfold upsertRefunds at h
    split at h
    · exact Except.noConfusion h
    · rename_i dbm heq
      rw [ih h, applyRefund_effect heq]
      exact (runBatchOps_app db _ _).symm

theorem applyOrderTxn_effect {cfg : Config} {db : Db} {m : Int} {o : OrderRec}
    {db3 : Db} {m3 : Int}
    (h : applyOrderTxn cfg db m o = (db3, m3, none)) :
    db3 = runBatchOps db (opsOfOrder o) := by
  unfold applyOrderTxn at h
  split at h
  · simp only [Prod.mk.injEq] at h
    exact absurd h.2.2 (by simp)
  · rename_i dbh heqh
    split at h
    · simp only [Prod.mk.injEq] at h
      exact absurd h.2.2 (by simp)
    · rename_i dbl heql
      split at h
      · simp only [Prod.mk.injEq] at h
        exact absurd h.2.2 (by simp)
      · rename_i dbr heqr
        simp only [Prod.mk.injEq] at h
        rw [← h.1]
        have hh : dbh = runBatchOps db
            (⟨[.ups o.id o], [], [], [], [], []⟩ : BatchOps) := by
          unfold upsertOrder at heqh
          cases hp : o.processed_at with
          | none =>
            rw [hp] at heqh
            cases hc : o.currency <;> rw [hc] at heqh <;>
              exact Except.noConfusion heqh
          | some t =>
            cases hc : o.currency with
            | none =>
              rw [hp, hc] at heqh
              exact Except.noConfusion heqh
            | some c =>
              rw [hp, hc] at heqh
              injection heqh with heqh
              subst heqh
              simp [runBatchOps, applyOps]
        rw [upsertRefunds_effect heqr, applyLineItems_effect heql, hh,
          opsOfOrder, runBatchOps_app, runBatchOps_app]

theorem applyBatch_effect (cfg : Config) :
    ∀ {os : List OrderRec} {db : Db} {m : Int} {db1 : Db} {m1 : Int},
    applyBatch cfg db m os = (db1, m1, none) →
    db1 = runBatchOps db (opsOfBatch os) := by
  intro os
  induction os with
  | nil =>
    intro db m db1 m1 h
    simp only [applyBatch, Prod.mk.injEq] at h
    rw [← h.1]
    exact (runBatchOps_nil db).symm
  | cons o rest ih =>
    intro db m db1 m1 h
    unfold applyBatch at h
    rcases htxn : applyOrderTxn cfg db m o with ⟨dbx, mx, e⟩
    rw [htxn] at h
    cases e with
    | some err =>
      simp only [Prod.mk.injEq] at h
      exact absurd h.2.2 (by simp)
    | none =>
      simp only at h
      rw [ih h, applyOrderTxn_effect htxn, opsOfBatch, runBatchOps_app]

end Shopify

end OpsModel

namespace OpsModel

namespace Shopify

/-- A line item the daily upsert accepts: skipped for an empty trimmed SKU,
otherwise its quantity passes `check (quantity <> 0)`. -/
def LiOk (li : LineItemRec) : Prop :=
  strTrim (li.sku.getD ("")) = "" ∨ li.quantity.getD 0 ≠ 0

/-- A refund line item the daily sync can commit: it carries no line-item
id (the keyed ON CONFLICT statement is rejected by the planner) and passes
`check (quantity >= 0)`. -/
def RliOk (x : RefundLineItemRec) : Prop :=
  rliLineItemId x = none ∧ ¬ x.quantity.getD 0 < 0

/-- A refund whose header and lines pass their constraints. -/
def RefundOk (r : RefundRec) : Prop :=
  r.created_at.isSome ∧ ∀ x ∈ r.refund_line_items.getD [], RliOk x

/-- An order whose whole transaction passes every constraint. -/
def OrderOk (o : OrderRec) : Prop :=
  o.processed_at.isSome ∧ o.currency.isSome ∧
  (∀ li ∈ o.line_items.getD [], LiOk li) ∧
  (∀ r ∈ o.refunds.getD [], RefundOk r)

/-- A batch whose every order applies cleanly. -/
def BatchOk (os : List OrderRec) : Prop := ∀ o ∈ os, OrderOk o

theorem upsertLineItem_ok_LiOk {cfg : Config} {db db1 : Db} {oid : Int}
    {tags : List String} {li : LineItemRec}
    (h : upsertLineItem cfg db oid tags li = .ok db1) : LiOk li := by
  simp only [upsertLineItem] at h
  split at h
  · rename_i hsku
    exact Or.inl hsku
  · split at h
    · exact Except.noConfusion h
    · split at h
      · exact Except.noConfusion h
      · rename_i hq
        exact Or.inr hq

theorem applyLineItems_ok_all {cfg : Config} {oid : Int} {tags : List String} :
    ∀ {lis : List LineItemRec} {db db1 : Db},
    applyLineItems cfg oid tags db lis = .ok db1 → ∀ li ∈ lis, LiOk li := by
  intro lis
  induction lis with
  | nil =>
    intro db db1 _ li hli
    cases hli
  | cons hd rest ih =>
    intro db db1 h li hli
    unfold applyLineItems at h
    split at h
    · exact Except.noConfusion h
    · rename_i dbm heq
      rcases List.mem_cons.mp hli with h1 | h2
      · subst h1
        exact upsertLineItem_ok_LiOk heq
      · exact ih h li h2

theorem applyRefundLineItem_ok_RliOk {cfg : Config} {db db1 : Db} {rid : Nat}
    {oid : Int} {x : RefundLineItemRec}
    (h : applyRefundLineItem cfg db rid oid x = .ok db1) : RliOk x := by
  simp only [applyRefundLineItem] at h
  split at h
  · exact Except.noConfusion h
  · split at h
    · exact Except.noConfusion h
    · rename_i hid
      split at h
      · exact Except.noConfusion h
      · rename_i hq
        exact ⟨hid, hq⟩

theorem applyRefundLineItems_ok_all {cfg : Config} {rid : Nat} {oid : Int} :
    ∀ {xs : List RefundLineItemRec} {db db1 : Db},
    applyRefundLineItems cfg rid oid db xs = .ok db1 → ∀ x ∈ xs, RliOk x := by
  intro xs
  induction xs with
  | nil =>
    intro db db1 _ x hx
    cases hx
  | cons hd rest ih =>
    intro db db1 h x hx
    unfold applyRefundLineItems at h
    split at h
    · exact Except.noConfusion h
    · rename_i dbm heq
      rcases List.mem_cons.mp hx with h1 | h2
      · subst h1
        exact applyRefundLineItem_ok_RliOk heq
      · exact ih h x h2

theorem upsertRefundHeader_ok_isSome {db db1 : Db} {oid : Int} {r : RefundRec}
    (h : upsertRefundHeader db oid r = .ok db1) : r.created_at.isSome := by
  unfold upsertRefundHeader at h
  cases hc : r.created_at with
  | none =>
    rw [hc] at h
    exact Except.noConfusion h
  | some t => simp [hc]

theorem applyRefund_ok_RefundOk {cfg : Config} {db db1 : Db} {oid : Int}
    {r : RefundRec} (h : applyRefund cfg db oid r = .ok db1) : RefundOk r := by
  unfold applyRefund at h
  split at h
  · exact Except.noConfusion h
  · rename_i dbm heq
    exact ⟨upsertRefundHeader_ok_isSome heq, applyRefundLineItems_ok_all h⟩

theorem upsertRefunds_ok_all {cfg : Config} {oid : Int} :
    ∀ {rs : List RefundRec} {db db1 : Db},
    upsertRefunds cfg oid db rs = .ok db1 → ∀ r ∈ rs, RefundOk r := by
  intro rs
  induction rs with
  | nil =>
    intro db db1 _ r hr
    cases hr
  | cons hd rest ih =>
    intro db db1 h r hr
    unfold upsertRefunds at h
    split at h
    · exact Except.noConfusion h
    · rename_i dbm heq
      rcases List.mem_cons.mp hr with h1 | h2
      · subst h1
        exact applyRefund_ok_RefundOk heq
      · exact ih h r h2

theorem upsertOrder_ok_isSome {db db1 : Db} {o : OrderRec}
    (h : upsertOrder db o = .ok db1) :
    o.processed_at.isSome ∧ o.currency.isSome := by
  unfold upsertOrder at h
  cases hp : o.processed_at with
  | none =>
    rw [hp] at h
    cases hc : o.currency <;> rw [hc] at h <;> exact Except.noConfusion h
  | some t =>
    cases hc : o.currency with
    | none =>
      rw [hp, hc] at h
      exact Except.noConfusion h
    | some c => simp [hp, hc]

theorem applyOrderTxn_none_OrderOk {cfg : Config} {db : Db} {m : Int}
    {o : OrderRec} {db3 : Db} {m3 : Int}
    (h : applyOrderTxn cfg db m o = (db3, m3, none)) : OrderOk o := by
  unfold applyOrderTxn at h
  split at h
  · simp only [Prod.mk.injEq] at h
    exact absurd h.2.2 (by simp)
  · rename_i dbh heqh
    split at h
    · simp only [Prod.mk.injEq] at h
      exact absurd h.2.2 (by simp)
    · rename_i dbl heql
      split at h
      · simp only [Prod.mk.injEq] at h
        exact absurd h.2.2 (by simp)
      · rename_i dbr heqr
        exact ⟨(upsertOrder_ok_isSome heqh).1, (upsertOrder_ok_isSome heqh).2,
          applyLineItems_ok_all heql, upsertRefunds_ok_all heqr⟩

theorem applyBatch_none_BatchOk (cfg : Config) :
    ∀ {os : List OrderRec} {db : Db} {m : Int} {db1 : Db} {m1 : Int},
    applyBatch cfg db m os = (db1, m1, none) → BatchOk os := by
  intro os
  induction os with
  | nil =>
    intro db m db1 m1 _ o ho
    cases ho
  | cons hd rest ih =>
    intro db m db1 m1 h o ho
    unfold applyBatch at h
    rcases htxn : applyOrderTxn cfg db m hd with ⟨dbx, mx, e⟩
    rw [htxn] at h
    cases e with
    | some err =>
      simp only [Prod.mk.injEq] at h
      exact absurd h.2.2 (by simp)
    | none =>
      simp only at h
      rcases List.mem_cons.mp ho with h1 | h2
      · subst h1
        exact applyOrderTxn_none_OrderOk htxn
      · exact ih h o h2

end Shopify

end OpsModel

namespace OpsModel

namespace Shopify

theorem ensureSkuExists_ok (cfg : Config) (db : Db) (sku : String) (m : SkuMeta)
    (hins : cfg.insertStubSkus = true) :
    ∃ r1 fl, ensureSkuExists cfg db sku m = .ok (r1, fl) := by
  unfold ensureSkuExists
  cases hl : lookupA db.dim_sku sku with
  | none =>
    rw [hins]
    exact ⟨_, true, rfl⟩
  | some row => exact ⟨db, false, rfl⟩

theorem upsertLineItem_ok_of {cfg : Config} (hins : cfg.insertStubSkus = true)
    (db : Db) (oid : Int) (tags : List String) {li : LineItemRec}
    (hok : LiOk li) : ∃ db1, upsertLineItem cfg db oid tags li = .ok db1 := by
  simp only [upsertLineItem]
  by_cases hsku : strTrim (li.sku.getD ("")) = ""
  · exact ⟨db, by rw [if_pos hsku]⟩
  · obtain ⟨r1, fl, he⟩ :=
      ensureSkuExists_ok cfg db (strTrim (li.sku.getD (""))) (liMeta li) hins
    have hq : li.quantity.getD 0 ≠ 0 := hok.resolve_left hsku
    have hstep : upsertLineItem cfg db oid tags li =
        .ok { r1 with line_items := (applyOp r1.line_items
          (.ups (oid, li.id) (mkLineItemRow tags (strTrim (li.sku.getD (""))) li))) } := by
      simp only [upsertLineItem, he]
      rw [if_neg hsku, if_neg hq]
    exact ⟨_, hstep⟩

theorem applyLineItems_ok_of {cfg : Config} (hins : cfg.insertStubSkus = true)
    (oid : Int) (tags : List String) :
    ∀ {lis : List LineItemRec} (db : Db), (∀ li ∈ lis, LiOk li) →
    ∃ db1, applyLineItems cfg oid tags db lis = .ok db1 := by
  intro lis
  induction lis with
  | nil =>
    intro db _
    exact ⟨db, rfl⟩
  | cons hd rest ih =>
    intro db hall
    obtain ⟨dbm, hm⟩ :=
      upsertLineItem_ok_of hins db oid tags (hall hd (List.mem_cons_self hd rest))
    obtain ⟨db1, h1⟩ := ih dbm (fun li hli => hall li (List.mem_cons_of_mem hd hli))
    refine ⟨db1, ?_⟩
    unfold applyLineItems
    rw [hm]
    exact h1

theorem applyRefundLineItem_ok_of {cfg : Config} (hins : cfg.insertStubSkus = true)
    (db : Db) (rid : Nat) (oid : Int) {x : RefundLineItemRec} (hok : RliOk x) :
    ∃ db1, applyRefundLineItem cfg db rid oid x = .ok db1 := by
  simp only [applyRefundLineItem]
  cases hs : rliSku x with
  | none =>
    simp only [hs, hok.1]
    rw [if_neg hok.2]
    exact ⟨_, rfl⟩
  | some s =>
    obtain ⟨r1, fl, he⟩ := ensureSkuExists_ok cfg db s (rliMeta x) hins
    simp only [hs, he, hok.1]
    rw [if_neg hok.2]
    exact ⟨_, rfl⟩

theorem applyRefundLineItems_ok_of {cfg : Config} (hins : cfg.insertStubSkus = true)
    (rid : Nat) (oid : Int) :
    ∀ {xs : List RefundLineItemRec} (db : Db), (∀ x ∈ xs, RliOk x) →
    ∃ db1, applyRefundLineItems cfg rid oid db xs = .ok db1 := by
  intro xs
  induction xs with
  | nil =>
    intro db _
    exact ⟨db, rfl⟩
  | cons hd rest ih =>
    intro db hall
    obtain ⟨dbm, hm⟩ :=
      applyRefundLineItem_ok_of hins db rid oid (hall hd (List.mem_cons_self hd rest))
    obtain ⟨db1, h1⟩ := ih dbm (fun x hx => hall x (List.mem_cons_of_mem hd hx))
    refine ⟨db1, ?_⟩
    unfold applyRefundLineItems
    rw [hm]
    exact h1

theorem upsertRefundHeader_ok_of (db : Db) (oid : Int) {r : RefundRec}
    (h : r.created_at.isSome) : ∃ db1, upsertRefundHeader db oid r = .ok db1 := by
  unfold upsertRefundHeader
  cases hc : r.created_at with
  | none =>
    rw [hc] at h
    exact absurd h (by simp)
  | some t => exact ⟨_, rfl⟩

theorem applyRefund_ok_of {cfg : Config} (hins : cfg.insertStubSkus = true)
    (db : Db) (oid : Int) {r : RefundRec} (hok : RefundOk r) :
    ∃ db1, applyRefund cfg db oid r = .ok db1 := by
  obtain ⟨dbh, hh⟩ := upsertRefundHeader_ok_of db oid hok.1
  obtain ⟨db1, h1⟩ := applyRefundLineItems_ok_of hins r.id oid dbh hok.2
  refine ⟨db1, ?_⟩
  unfold applyRefund
  rw [hh]
  exact h1

theorem upsertRefunds_ok_of {cfg : Config} (hins : cfg.insertStubSkus = true)
    (oid : Int) :
    ∀ {rs : List RefundRec} (db : Db), (∀ r ∈ rs, RefundOk r) →
    ∃ db1, upsertRefunds cfg oid db rs = .ok db1 := by
  intro rs
  induction rs with
  | nil =>
    intro db _
    exact ⟨db, rfl⟩
  | cons hd rest ih =>
    intro db hall
    obtain ⟨dbm, hm⟩ := applyRefund_ok_of hins db oid (hall hd (List.mem_cons_self hd rest))
    obtain ⟨db1, h1⟩ := ih dbm (fun r hr => hall r (List.mem_cons_of_mem hd hr))
    refine ⟨db1, ?_⟩
    unfold upsertRefunds
    rw [hm]
    exact h1

theorem applyOrderTxn_none_of {cfg : Config} (hins : cfg.insertStubSkus = true)
    (db : Db) (m : Int) {o : OrderRec} (hok : OrderOk o) :
    (applyOrderTxn cfg db m o).2.2 = none := by
  obtain ⟨hp, hc, hli, hrf⟩ := hok
  have hordEx : ∃ dbh, upsertOrder db o = .ok dbh := by
    unfold upsertOrder
    cases hpe : o.processed_at with
    | none =>
      rw [hpe] at hp
      exact absurd hp (by simp)
    | some t =>
      cases hce : o.currency with
      | none =>
        rw [hce] at hc
        exact absurd hc (by simp)
      | some c => exact ⟨_, rfl⟩
  obtain ⟨dbh, hh⟩ := hordEx
  obtain ⟨dbl, hl⟩ := applyLineItems_ok_of hins o.id o.tags dbh hli
  obtain ⟨dbr, hr⟩ := upsertRefunds_ok_of hins o.id dbl hrf
  unfold applyOrderTxn
  simp only [hh, hl, hr]

theorem applyBatch_none_of {cfg : Config} (hins : cfg.insertStubSkus = true) :
    ∀ {os : List OrderRec} (db : Db) (m : Int), BatchOk os →
    (applyBatch cfg db m os).2.2 = none := by
  intro os
  induction os with
  | nil =>
    intro db m _
    rfl
  | cons hd rest ih =>
    intro db m hall
    have hnone := applyOrderTxn_none_of hins db m (hall hd (List.mem_cons_self hd rest))
    rcases htxn : applyOrderTxn cfg db m hd with ⟨dbx, mx, e⟩
    rw [htxn] at hnone
    have he : e = none := hnone
    subst he
    unfold applyBatch
    rw [htxn]
    exact ih dbx mx (fun o ho => hall o (List.mem_cons_of_mem hd ho))

end Shopify

end OpsModel

namespace OpsModel

namespace Shopify

/-- An order none of whose refunds carry refund line items.  A committed
refund line item always lands outside the unique indexes (the keyed path is
rejected by the planner), so only orders without refund line items replay
as no-ops. -/
def OrderNoRlis (o : OrderRec) : Prop :=
  ∀ r ∈ o.refunds.getD [], r.refund_line_items.getD [] = []

/-- A batch none of whose orders carry refund line items. -/
def BatchNoRlis (os : List OrderRec) : Prop := ∀ o ∈ os, OrderNoRlis o

theorem opsOfLineItem_unkeyed (oid : Int) (tags : List String) (li : LineItemRec) :
    (opsOfLineItem oid tags li).unkeyedRows = [] := by
  simp only [opsOfLineItem]
  split
  · rfl
  · rfl

theorem opsOfLineItems_unkeyed (oid : Int) (tags : List String) :
    ∀ lis : List LineItemRec, (opsOfLineItems oid tags lis).unkeyedRows = []
  | [] => rfl
  | li :: rest => by
    show (opsOfLineItem oid tags li).unkeyedRows ++
      (opsOfLineItems oid tags rest).unkeyedRows = []
    rw [opsOfLineItem_unkeyed, opsOfLineItems_unkeyed oid tags rest]
    rfl

theorem opsOfRefund_unkeyed (oid : Int) {r : RefundRec}
    (h : r.refund_line_items.getD [] = []) :
    (opsOfRefund oid r).unkeyedRows = [] := by
  show ([] : List RefundLineRow) ++
    (opsOfRlis r.id oid (r.refund_line_items.getD [])).unkeyedRows = []
  rw [h]
  rfl

theorem opsOfRefunds_unkeyed (oid : Int) :
    ∀ {rs : List RefundRec},
    (∀ r ∈ rs, r.refund_line_items.getD [] = []) →
    (opsOfRefunds oid rs).unkeyedRows = []
  | [], _ => rfl
  | r :: rest, h => by
    show (opsOfRefund oid r).unkeyedRows ++ (opsOfRefunds oid rest).unkeyedRows = []
    rw [opsOfRefund_unkeyed oid (h r (List.mem_cons_self r rest)),
      opsOfRefunds_unkeyed oid (fun y hy => h y (List.mem_cons_of_mem r hy))]
    rfl

theorem opsOfOrder_unkeyed {o : OrderRec} (h : OrderNoRlis o) :
    (opsOfOrder o).unkeyedRows = [] := by
  show ([] : List RefundLineRow) ++
    ((opsOfLineItems o.id o.tags (o.line_items.getD [])).unkeyedRows ++
      (opsOfRefunds o.id (o.refunds.getD [])).unkeyedRows) = []
  rw [opsOfLineItems_unkeyed, opsOfRefunds_unkeyed o.id h]
  rfl

theorem opsOfBatch_unkeyed :
    ∀ {os : List OrderRec}, BatchNoRlis os → (opsOfBatch os).unkeyedRows = []
  | [], _ => rfl
  | o :: rest, h => by
    show (opsOfOrder o).unkeyedRows ++ (opsOfBatch rest).unkeyedRows = []
    rw [opsOfOrder_unkeyed (h o (List.mem_cons_self o rest)),
      opsOfBatch_unkeyed (fun y hy => h y (List.mem_cons_of_mem o hy))]
    rfl

end Shopify

end OpsModel

namespace OpsModel

namespace Shopify

instance (o : OrderRec) : Decidable (OrderNoRlis o) :=
  inferInstanceAs (Decidable (∀ r ∈ o.refunds.getD [],
    r.refund_line_items.getD [] = []))

instance (os : List OrderRec) : Decidable (BatchNoRlis os) :=
  inferInstanceAs (Decidable (∀ o ∈ os, OrderNoRlis o))

end Shopify

/-- A refund line item with no embedded line item and a null line_item_id:
its stored row falls outside the partial unique index
`(refund_id, line_item_id) where line_item_id is not null`. -/
def rliNullId : RefundLineItemRec :=
  { line_item := none, line_item_id := none, subtotal := some 500
    amount := none, total_tax := none, quantity := some 1 }

/-- A refund holding only that null-id line item. -/
def refundNullId : RefundRec :=
  { id := 900, created_at := some 700, note := none
    refund_line_items := some [rliNullId] }

/-- An otherwise plain order carrying the null-id refund line item. -/
def orderNullIdRefund : OrderRec :=
  { id := 4, order_number := some 1004, customer := none
    processed_at := some 500, created_at := some 400, updated_at := some 600
    currency := some ("USD"), financial_status := none
    fulfillment_status := none, cancelled_at := none, cancel_reason := none
    tags := [], test := false, line_items := some []
    refunds := some [refundNullId] }

/-- The state after applying that batch once from the empty store. -/
def nullIdOnce : Db :=
  (Shopify.applyBatch ⟨7, 48, true⟩ emptyDb 0 [orderNullIdRefund]).1

/-- The state after applying the same batch a second time. -/
def nullIdTwice : Db :=
  (Shopify.applyBatch ⟨7, 48, true⟩ nullIdOnce 0 [orderNullIdRefund]).1

/-- C3 counterexample: a batch holding a refund line item whose
line_item_id is null applies successfully twice, yet the second application
changes the storage state — the row sits outside the partial unique index
of ops.fact_shopify_refund_line_items, so the plain insert duplicates it
(one stored row after the first pass, two after the second).  Replaying a
fetched batch is therefore not idempotent for all record shapes. -/
theorem replay_idempotence_counterexample :
    (Shopify.applyBatch ⟨7, 48, true⟩ emptyDb 0 [orderNullIdRefund]).2.2 =
      none ∧
    (Shopify.applyBatch ⟨7, 48, true⟩ nullIdOnce 0 [orderNullIdRefund]).2.2 =
      none ∧
    nullIdTwice ≠ nullIdOnce ∧
    nullIdOnce.refund_lines_unkeyed.length = 1 ∧
    nullIdTwice.refund_lines_unkeyed.length = 2 := by
  refine ⟨by decide, by decide, by decide, by decide, by decide⟩

/-- C3 (amended): replay idempotence holds only for batches without refund
line items.  With stub insertion enabled, replaying a successfully applied
batch whose refunds carry no line items succeeds again and leaves the
storage state unchanged: all its writes land on unique-index conflict
targets (order_id; (order_id, line_item_id); sku with do-nothing;
refund_id).  Refund line items break the property in both directions: one
WITH a line_item_id makes the batch fail on its very first application —
the statement's `on conflict (refund_id, line_item_id) do update` omits
the `where line_item_id is not null` predicate of the partial index
refund_line_items_uniq, so the planner rejects it (second conjunct) — and
one WITHOUT an id is inserted outside any unique index and duplicates on
replay (the counterexample). -/
theorem replay_idempotence_amended :
    (∀ (cfg : Config) (db db1 : Db) (m m1 m2 : Int) (os : List OrderRec),
      cfg.insertStubSkus = true → Shopify.BatchNoRlis os →
      Shopify.applyBatch cfg db m os = (db1, m1, none) →
      (Shopify.applyBatch cfg db1 m2 os).1 = db1 ∧
      (Shopify.applyBatch cfg db1 m2 os).2.2 = none) ∧
    (∀ (cfg : Config) (db : Db) (rid : Nat) (oid : Int)
      (x : RefundLineItemRec) (lid : Nat) (db1 : Db),
      Shopify.rliLineItemId x = some lid →
      Shopify.applyRefundLineItem cfg db rid oid x ≠ .ok db1) := by
  constructor
  · intro cfg db db1 m m1 m2 os hins hnorli h1
    have hok : Shopify.BatchOk os := Shopify.applyBatch_none_BatchOk cfg h1
    have h2none : (Shopify.applyBatch cfg db1 m2 os).2.2 = none :=
      Shopify.applyBatch_none_of hins db1 m2 hok
    rcases h2 : Shopify.applyBatch cfg db1 m2 os with ⟨db2, mx, e⟩
    rw [h2] at h2none
    have he : e = none := h2none
    subst he
    have hd1 : db1 = Shopify.runBatchOps db (Shopify.opsOfBatch os) :=
      Shopify.applyBatch_effect cfg h1
    have hd2 : db2 = Shopify.runBatchOps db1 (Shopify.opsOfBatch os) :=
      Shopify.applyBatch_effect cfg h2
    constructor
    · show db2 = db1
      rw [hd2, hd1]
      exact Shopify.runBatchOps_idem db (Shopify.opsOfBatch os)
        (Shopify.opsOfBatch_unkeyed hnorli)
    · rfl
  · intro cfg db rid oid x lid db1 hid h
    simp only [Shopify.applyRefundLineItem, hid] at h
    split at h
    · exact Except.noConfusion h
    · exact Except.noConfusion h

/-- The witness batch's single line item (its SKU gets a stub). -/
def replayWitLi : LineItemRec :=
  { id := 11, sku := some ("THM-1"), product_id := some 3
    variant_id := some 4, title := some ("Thing"), variant_title := none
    name := none, quantity := some 2, fulfillment_service := none
    price := some 1500, total_discount := some 100, tax_lines := none }

/-- The witness batch's refund: a header with no refund line items. -/
def replayWitRefund : RefundRec :=
  { id := 901, created_at := some 700, note := none
    refund_line_items := some [] }

/-- An order whose batch commits and replays: one line item (with stub
creation) and one refund header, no refund line items. -/
def replayWitOrder : OrderRec :=
  { id := 5, order_number := some 1005, customer := none
    processed_at := some 500, created_at := some 400, updated_at := some 600
    currency := some ("USD"), financial_status := none
    fulfillment_status := none, cancelled_at := none, cancel_reason := none
    tags := [], test := false
    line_items := some [replayWitLi]
    refunds := some [replayWitRefund] }

/-- One successful application of that batch. -/
def replayWitDb : Db :=
  (Shopify.applyBatch ⟨7, 48, true⟩ emptyDb 0 [replayWitOrder]).1

/-- A refund line item carrying a line-item id, for the witness's
keyed-path conjunct. -/
def keyedRliSample : RefundLineItemRec :=
  { line_item := none, line_item_id := some 11, subtotal := some 500
    amount := none, total_tax := none, quantity := some 1 }

/-- Witness for C3 amended: the line-item-plus-refund-header batch replays
as a storage no-op, and a refund line item with a line-item id never
commits. -/
theorem replay_idempotence_amended_witness :
    (⟨7, 48, true⟩ : Config).insertStubSkus = true ∧
    Shopify.BatchNoRlis [replayWitOrder] ∧
    Shopify.applyBatch ⟨7, 48, true⟩ emptyDb 0 [replayWitOrder] =
      (replayWitDb, 600, none) ∧
    ((Shopify.applyBatch ⟨7, 48, true⟩ replayWitDb 7 [replayWitOrder]).1 =
        replayWitDb ∧
      (Shopify.applyBatch ⟨7, 48, true⟩ replayWitDb 7 [replayWitOrder]).2.2 =
        none) ∧
    Shopify.rliLineItemId keyedRliSample = some 11 ∧
    Shopify.applyRefundLineItem ⟨7, 48, true⟩ emptyDb 901 5 keyedRliSample ≠
      .ok emptyDb :=
  ⟨by decide, by decide, by decide,
    replay_idempotence_amended.1 ⟨7, 48, true⟩ emptyDb replayWitDb 0 600 7
      [replayWitOrder] (by decide) (by decide) (by decide),
    by decide,
    replay_idempotence_amended.2 ⟨7, 48, true⟩ emptyDb 901 5 keyedRliSample 11
      emptyDb (by decide)⟩

end OpsModel
